import Mathlib

/-!
Verification development for the TeamConsistency worker-profile server
(src/server.py).  The Python source is shallowly embedded: SQLite tables
become Lean lists of records, HTTP handlers become pure functions from a
Store to an updated Store or an error, Python floats become rationals, and
Python str operations are modelled over ASCII character lists.  The only
abstraction is math.sqrt, which is passed to the analytics engine as an
uninterpreted rational-valued parameter because no claim depends on the
value it returns.
-/

namespace TeamConsistency

/-- Python whitespace class used by str.strip and the regex \s
(space, tab, newline, carriage return, vertical tab, form feed). -/
def isPyWS (c : Char) : Bool :=
  c = ' ' || c = '\t' || c = '\n' || c = '\r' || c = '\x0b' || c = '\x0c'

/-- Model of Python str.strip on a character list: drop leading and
trailing whitespace. -/
def trimWSList (l : List Char) : List Char :=
  ((l.dropWhile isPyWS).reverse.dropWhile isPyWS).reverse

/-- Model of Python str.strip. -/
def pyStrip (s : String) : String :=
  String.mk (trimWSList s.data)

/-- Table of the ASCII capital letters and their lowercase forms. -/
def lowerPairs : List (Char × Char) :=
  [('A','a'), ('B','b'), ('C','c'), ('D','d'), ('E','e'), ('F','f'), ('G','g'),
   ('H','h'), ('I','i'), ('J','j'), ('K','k'), ('L','l'), ('M','m'), ('N','n'),
   ('O','o'), ('P','p'), ('Q','q'), ('R','r'), ('S','s'), ('T','t'), ('U','u'),
   ('V','v'), ('W','w'), ('X','x'), ('Y','y'), ('Z','z')]

/-- First-match association lookup in the lowercase table. -/
def lookupLower (c : Char) : List (Char × Char) → Option Char
  | [] => none
  | (u, l) :: rest => if c = u then some l else lookupLower c rest

/-- ASCII model of Python str.lower applied to one character. -/
def asciiLower (c : Char) : Char :=
  (lookupLower c lowerPairs).getD c

/-- ASCII model of Python str.lower. -/
def pyLower (s : String) : String :=
  String.mk (s.data.map asciiLower)

/-- Model of the regex substitution sub with pattern \s+ and a single
space as replacement: every maximal whitespace run becomes one space.
The boolean argument records whether the previous character was part of
a whitespace run. -/
def collapseGo : Bool → List Char → List Char
  | _, [] => []
  | prevWS, c :: cs =>
    if isPyWS c then
      if prevWS then collapseGo true cs else ' ' :: collapseGo true cs
    else
      c :: collapseGo false cs

/-- Test whether a character list starts with whitespace. -/
def headIsWS : List Char → Bool
  | [] => false
  | c :: _ => isPyWS c

/-- Test whether a character list ends with whitespace. -/
def lastIsWS : List Char → Bool
  | [] => false
  | [c] => isPyWS c
  | _ :: c :: cs => lastIsWS (c :: cs)

/-- normalize_worker_name from src/server.py: strip, collapse internal
whitespace runs to single spaces, lowercase. -/
def normalize_worker_name (name : String) : String :=
  String.mk ((collapseGo false (trimWSList name.data)).map asciiLower)

/-- normalize_employee_id from src/server.py: strip; an empty result is
absence (none); otherwise remove all whitespace and lowercase. -/
def normalize_employee_id (employee_id : Option String) : Option String :=
  let cleaned := trimWSList (employee_id.getD "").data
  if cleaned = [] then none
  else some (String.mk ((cleaned.filter (fun c => !(isPyWS c))).map asciiLower))

/-- canonical_worker_key from src/server.py: normalized name, joined to
the normalized employee id by a double colon when that id is present. -/
def canonical_worker_key (name : String) (employee_id : Option String) : String :=
  let normalized_name := normalize_worker_name name
  match normalize_employee_id employee_id with
  | some e => normalized_name ++ "::" ++ e
  | none => normalized_name

/-- Code-point lexicographic comparison of character lists, modelling the
Python string < used by sorted on rated-at strings. -/
def charListLt : List Char → List Char → Bool
  | [], [] => false
  | [], _ :: _ => true
  | _ :: _, [] => false
  | a :: as, b :: bs => if a < b then true else if b < a then false else charListLt as bs

/-- Row shape produced by fetch_ratings in src/server.py: the dict keys
id, category, score, reviewer, note, ratedAt. -/
structure RatingRow where
  id : Nat
  category : String
  score : ℚ
  reviewer : String
  note : String
  ratedAt : String
deriving DecidableEq

/-- clamp from src/server.py. -/
def clamp (value minimum maximum : ℚ) : ℚ :=
  max minimum (min maximum value)

/-- Model of the Python builtin round with two decimal places, as used by
src/server.py.  Rounding to the nearest multiple of one hundredth; the
tie-breaking direction of Python floats is immaterial to every claim. -/
def round2 (q : ℚ) : ℚ :=
  ((round (q * 100) : ℤ) : ℚ) / 100

/-- to_five_point_scale from src/server.py. -/
def to_five_point_scale (raw_score : ℚ) : ℚ :=
  round2 ((clamp raw_score (-5) 5 + 5) / 2)

/-- Test that the first character list starts the second one. -/
def listStartsWith : List Char → List Char → Bool
  | [], _ => true
  | _ :: _, [] => false
  | a :: as, b :: bs => a == b && listStartsWith as bs

/-- Test that the first character list occurs contiguously inside the
second one, modelling the Python substring operator in. -/
def listContainsSeq (needle : List Char) : List Char → Bool
  | [] => listStartsWith needle []
  | b :: bs => listStartsWith needle (b :: bs) || listContainsSeq needle bs

/-- is_punctuality_category from src/server.py: the stripped lowercased
category contains one of the four lateness keywords as a substring. -/
def is_punctuality_category (category : String) : Bool :=
  let normalized := pyLower (pyStrip category)
  listContainsSeq "punctuality".data normalized.data ||
    listContainsSeq "attendance".data normalized.data ||
    listContainsSeq "timeliness".data normalized.data ||
    listContainsSeq "late".data normalized.data

/-- Sort key test for ratings, modelling the Python key (ratedAt, id)
compared left to right. -/
def ratingKeyLE (a b : RatingRow) : Bool :=
  charListLt a.ratedAt.data b.ratedAt.data || (a.ratedAt == b.ratedAt && decide (a.id ≤ b.id))

/-- Stable insertion of a rating into an already key-sorted list: the new
element goes after every element whose key is less than or equal, which
matches the stability of the Python builtin sorted. -/
def insertSortedRating (x : RatingRow) : List RatingRow → List RatingRow
  | [] => [x]
  | y :: ys => if ratingKeyLE y x then y :: insertSortedRating x ys else x :: y :: ys

/-- Model of sorted with key (ratedAt, id) from score_profile_metrics. -/
def sortRatings (rs : List RatingRow) : List RatingRow :=
  rs.foldl (fun acc r => insertSortedRating r acc) []

/-- Punctuality-classified subsequence of the sorted rating sequence. -/
def punctuality_of (rs : List RatingRow) : List RatingRow :=
  (sortRatings rs).filter (fun e => is_punctuality_category e.category)

/-- Python slice taking the last three entries (the whole list when it is
shorter than three). -/
def lastThree (l : List RatingRow) : List RatingRow :=
  l.drop (l.length - 3)

/-- recent_punctuality in score_profile_metrics. -/
def recent_punctuality_of (rs : List RatingRow) : List RatingRow :=
  lastThree (punctuality_of rs)

/-- late_trend_applied in score_profile_metrics: the last-three slice of
the punctuality subsequence has length exactly three and every raw score
in it is nonpositive. -/
def late_trend_applied_of (rs : List RatingRow) : Bool :=
  let recent := recent_punctuality_of rs
  recent.length == 3 && recent.all (fun e => decide (e.score ≤ 0))

/-- Weighted raw score of one rating in the loop of score_profile_metrics:
doubled when the late trend applies and the rating is punctuality
classified, otherwise kept. -/
def rating_weighted_score (late_trend : Bool) (e : RatingRow) : ℚ :=
  e.score * (if late_trend && is_punctuality_category e.category then 2 else 1)

/-- weighted_scores accumulated by the loop of score_profile_metrics. -/
def weighted_scores_of (late_trend : Bool) (sorted : List RatingRow) : List ℚ :=
  sorted.map (rating_weighted_score late_trend)

/-- One step of the positive-streak bookkeeping in score_profile_metrics:
the pair is the current streak and the best streak. -/
def streak_step (acc : Nat × Nat) (normalized_score : ℚ) : Nat × Nat :=
  if (3.5 : ℚ) ≤ normalized_score then (acc.1 + 1, max acc.2 (acc.1 + 1)) else (0, acc.2)

/-- Output record of score_profile_metrics. -/
structure Metrics where
  normalizedOverallScore : ℚ
  consistencyScore : ℚ
  currentPositiveStreak : Nat
  bestPositiveStreak : Nat
  lateTrendWeightApplied : Bool
  lateTrend : String
deriving DecidableEq

/-- score_profile_metrics from src/server.py.  The square-root function of
the math module is the parameter sq; every other step is computed
exactly as in the source. -/
def score_profile_metrics (sq : ℚ → ℚ) (ratings : List RatingRow) : Metrics :=
  if ratings.isEmpty then
    { normalizedOverallScore := 0, consistencyScore := 0, currentPositiveStreak := 0,
      bestPositiveStreak := 0, lateTrendWeightApplied := false,
      lateTrend := "No punctuality trend yet" }
  else
    let sorted := sortRatings ratings
    let late_trend_applied := late_trend_applied_of ratings
    let normalized_scores := sorted.map (fun e => to_five_point_scale e.score)
    let streaks := normalized_scores.foldl streak_step (0, 0)
    let weighted_scores := weighted_scores_of late_trend_applied sorted
    let weighted_average := weighted_scores.sum / (weighted_scores.length : ℚ)
    let streak_bonus := min (0.5 : ℚ) ((streaks.1 : ℚ) * 0.1)
    let normalized_overall_score := round2 (clamp (to_five_point_scale weighted_average + streak_bonus) 0 5)
    let mean_score := normalized_scores.sum / (normalized_scores.length : ℚ)
    let variance := (normalized_scores.map (fun n => (n - mean_score) ^ 2)).sum / (normalized_scores.length : ℚ)
    let consistency_score := round2 (clamp (100 - sq variance * 20) 0 100)
    let late_trend_text :=
      if late_trend_applied then "Always late trend detected; punctuality scores are doubled"
      else if !(recent_punctuality_of ratings).isEmpty then "Punctuality is being monitored"
      else "No punctuality trend yet"
    { normalizedOverallScore := normalized_overall_score, consistencyScore := consistency_score,
      currentPositiveStreak := streaks.1, bestPositiveStreak := streaks.2,
      lateTrendWeightApplied := late_trend_applied, lateTrend := late_trend_text }

/-- Row of the worker_profiles table.  The created_at and updated_at
columns are wall-clock metadata consulted by no claim and are omitted. -/
structure WorkerProfile where
  id : Nat
  name : String
  jobCategory : Option String
  score : Option ℚ
  reviewer : Option String
  notes : Option String
  ratedAt : Option String
  profileStatus : Option String
  backgroundInfo : Option String
  externalEmployeeId : Option String
  canonicalName : String
  canonicalWorkerKey : String
deriving DecidableEq

/-- Row of the worker_ratings table. -/
structure StoredRating where
  id : Nat
  workerId : Nat
  jobCategory : String
  score : ℚ
  reviewer : String
  notes : String
  ratedAt : String
deriving DecidableEq

/-- Row of the worker_profile_history table. -/
structure HistoryRow where
  id : Nat
  workerId : Nat
  category : String
  score : ℚ
  note : Option String
  createdAt : String
deriving DecidableEq

/-- Row of the worker_profile_notes table. -/
structure NoteRow where
  id : Nat
  workerId : Nat
  note : String
  createdAt : String
deriving DecidableEq

/-- The SQLite database: the four tables, the admin catalog lists, and the
AUTOINCREMENT counters. -/
structure Store where
  profiles : List WorkerProfile
  ratings : List StoredRating
  history : List HistoryRow
  noteRows : List NoteRow
  jobTypes : List String
  criteriaNames : List String
  nextProfileId : Nat
  nextRatingId : Nat
  nextHistoryId : Nat
  nextNoteId : Nat
deriving DecidableEq

/-- Fresh database as produced by initialize_database together with the
admin catalog defaults of initialize_admin_catalog. -/
def seedStore : Store :=
  { profiles := [], ratings := [], history := [], noteRows := [],
    jobTypes := ["Loading dock", "Warehouse", "Picker"],
    criteriaNames := ["Late / on time", "Work quality"],
    nextProfileId := 1, nextRatingId := 1, nextHistoryId := 1, nextNoteId := 1 }

/-- find_profile_by_rating_identity from src/server.py.  The connection is
replaced by the list of profile rows; the ORDER BY of the name query only
affects which of several matches comes first, and the function uses the
list only when it has exactly one element. -/
def find_profile_by_rating_identity (profiles : List WorkerProfile) (worker_name : String)
    (canonical_key : String) (external_employee_id : Option String) : Option WorkerProfile :=
  match profiles.find? (fun p => p.canonicalWorkerKey == canonical_key) with
  | some existing => some existing
  | none =>
    if external_employee_id.isSome then none
    else
      let normalized_name := normalize_worker_name worker_name
      match profiles.filter (fun p => p.canonicalName == normalized_name) with
      | [p] => some p
      | _ => none

/-- SELECT of one profile row by id. -/
def getProfile (s : Store) (profile_id : Nat) : Option WorkerProfile :=
  s.profiles.find? (fun p => p.id == profile_id)

/-- Ratings owned by one profile. -/
def profile_ratings (s : Store) (worker_id : Nat) : List StoredRating :=
  s.ratings.filter (fun r => r.workerId == worker_id)

/-- History rows owned by one profile. -/
def profile_history (s : Store) (worker_id : Nat) : List HistoryRow :=
  s.history.filter (fun h => h.workerId == worker_id)

/-- Note rows owned by one profile. -/
def profile_note_rows (s : Store) (worker_id : Nat) : List NoteRow :=
  s.noteRows.filter (fun n => n.workerId == worker_id)

/-- UPDATE of one profile row in place. -/
def write_profile_row (profiles : List WorkerProfile) (p : WorkerProfile) : List WorkerProfile :=
  profiles.map (fun q => if q.id == p.id then p else q)

/-- Partial unique indexes created by ensure_uniqueness_indexes: a write
of row p raises an integrity error when a different row shares its
canonical worker key, or shares its non-null external employee id. -/
def violates_uniqueness (profiles : List WorkerProfile) (p : WorkerProfile) : Bool :=
  profiles.any (fun q =>
    q.id != p.id &&
      (q.canonicalWorkerKey == p.canonicalWorkerKey ||
        (p.externalEmployeeId.isSome && q.externalEmployeeId == p.externalEmployeeId)))

/-- Python truthiness fallback, modelling value or fallback where an
absent or empty string falls through. -/
def truthyOr (value : Option String) (fallback : String) : String :=
  match value with
  | some v => if v = "" then fallback else v
  | none => fallback

/-- History text written alongside every appended rating. -/
def rating_log_message (reviewer note : String) : String :=
  "Rating logged by " ++ reviewer ++ (if note = "" then "" else ": " ++ note)

/-- INSERT into worker_ratings. -/
def insert_rating_row (s : Store) (worker_id : Nat) (category : String) (score : ℚ)
    (reviewer note rated_at : String) : Store :=
  { s with
    ratings := s.ratings ++
      [{ id := s.nextRatingId, workerId := worker_id, jobCategory := category,
         score := score, reviewer := reviewer, notes := note, ratedAt := rated_at }],
    nextRatingId := s.nextRatingId + 1 }

/-- append_profile_history_entry from src/server.py: an empty note is
stored as NULL. -/
def append_profile_history_entry (s : Store) (worker_id : Nat) (category : String) (score : ℚ)
    (note created_at : String) : Store :=
  { s with
    history := s.history ++
      [{ id := s.nextHistoryId, workerId := worker_id, category := category,
         score := score, note := if note = "" then none else some note,
         createdAt := created_at }],
    nextHistoryId := s.nextHistoryId + 1 }

/-- Caller-supplied history entry (category, score, optional note and
timestamp) accepted by the profile create and update handlers. -/
structure HistoryInput where
  category : String
  score : ℚ
  note : String
  createdAt : Option String
deriving DecidableEq

/-- Caller-supplied profile note. -/
structure NoteInput where
  note : String
  createdAt : Option String
deriving DecidableEq

/-- replace_profile_history from src/server.py: delete every history row
of the profile, then insert the supplied entries. -/
def replace_profile_history (s : Store) (worker_id : Nat) (entries : List HistoryInput)
    (now : String) : Store :=
  entries.foldl
    (fun st entry =>
      { st with
        history := st.history ++
          [{ id := st.nextHistoryId, workerId := worker_id,
             category := pyStrip entry.category, score := entry.score,
             note := if pyStrip entry.note = "" then none else some (pyStrip entry.note),
             createdAt := truthyOr entry.createdAt now }],
        nextHistoryId := st.nextHistoryId + 1 })
    { s with history := s.history.filter (fun h => h.workerId != worker_id) }

/-- replace_profile_notes from src/server.py. -/
def replace_profile_notes (s : Store) (worker_id : Nat) (entries : List NoteInput)
    (now : String) : Store :=
  entries.foldl
    (fun st entry =>
      { st with
        noteRows := st.noteRows ++
          [{ id := st.nextNoteId, workerId := worker_id,
             note := pyStrip entry.note, createdAt := truthyOr entry.createdAt now }],
        nextNoteId := st.nextNoteId + 1 })
    { s with noteRows := s.noteRows.filter (fun n => n.workerId != worker_id) }

/-- Category part of validate_allowed_rating_values: a non-empty category
must appear, lowercased, among the lowercased admin job types when that
list is non-empty.  The selectedCriteria part of the source function is
not modelled because no claim submits criteria. -/
def validate_allowed_category (s : Store) (category : String) : Bool :=
  category == "" || s.jobTypes.isEmpty || (s.jobTypes.map pyLower).contains (pyLower category)

/-- Errors surfaced by the handlers: 400 validation, 404 not found, and
409 integrity conflict. -/
inductive ApiError where
  | validation : String → ApiError
  | notFound : String → ApiError
  | conflict : ApiError
deriving DecidableEq

/-- JSON body of the rating-submission route (POST api profiles).  Field
aliases are resolved at the boundary; absent strings arrive as
Option.none. -/
structure RatingSubmission where
  workerName : String
  externalEmployeeId : Option String
  category : String
  score : ℚ
  reviewer : String
  note : String
  ratedAt : Option String
deriving DecidableEq

/-- Profile row inserted by the rating-submission route when the resolver
finds no match: the payload fields, stripped, become both the stored
fields and the denormalized latest-rating snapshot. -/
def submit_created_row (s : Store) (payload : RatingSubmission) (now : String) : WorkerProfile :=
  { id := s.nextProfileId, name := pyStrip payload.workerName,
    jobCategory := some (pyStrip payload.category), score := some payload.score,
    reviewer := some (pyStrip payload.reviewer), notes := some (pyStrip payload.note),
    ratedAt := some (truthyOr payload.ratedAt now), profileStatus := none,
    backgroundInfo := none,
    externalEmployeeId := normalize_employee_id payload.externalEmployeeId,
    canonicalName := normalize_worker_name (pyStrip payload.workerName),
    canonicalWorkerKey := canonical_worker_key (pyStrip payload.workerName)
      (normalize_employee_id payload.externalEmployeeId) }

/-- Profile row written by the rating-submission route when the resolver
finds an existing match: the snapshot and identity columns are replaced,
the display name is kept. -/
def submit_updated_row (existing : WorkerProfile) (payload : RatingSubmission) (now : String) :
    WorkerProfile :=
  { existing with
    jobCategory := some (pyStrip payload.category), score := some payload.score,
    reviewer := some (pyStrip payload.reviewer), notes := some (pyStrip payload.note),
    ratedAt := some (truthyOr payload.ratedAt now),
    externalEmployeeId := normalize_employee_id payload.externalEmployeeId,
    canonicalName := normalize_worker_name (pyStrip payload.workerName),
    canonicalWorkerKey := canonical_worker_key (pyStrip payload.workerName)
      (normalize_employee_id payload.externalEmployeeId) }

/-- Rating submission by worker name, from do_POST on the profiles route:
validate, resolve identity, insert or update the profile with the
denormalized snapshot, then insert the rating and append the history
line.  The returned number is the owning profile id. -/
def submit_rating (s : Store) (payload : RatingSubmission) (now : String) :
    Except ApiError (Store × Nat) :=
  if (pyStrip payload.workerName).length < 2 then
    .error (.validation "workerName is required and must be at least 2 characters")
  else if payload.score < -5 ∨ payload.score > 5 then
    .error (.validation "score must be a number between -5 and 5")
  else if pyStrip payload.reviewer = "" then
    .error (.validation "Missing required field: reviewer")
  else
    let worker_name := pyStrip payload.workerName
    let external_employee_id := normalize_employee_id payload.externalEmployeeId
    let key := canonical_worker_key worker_name external_employee_id
    let category := pyStrip payload.category
    let score := payload.score
    let reviewer := pyStrip payload.reviewer
    let note := pyStrip payload.note
    let rated_at := truthyOr payload.ratedAt now
    if validate_allowed_category s category = false then
      .error (.validation "category must be one of the admin-defined job types")
    else
      match find_profile_by_rating_identity s.profiles worker_name key external_employee_id with
      | none =>
        let created := submit_created_row s payload now
        if violates_uniqueness s.profiles created then .error .conflict
        else
          let s1 := { s with profiles := s.profiles ++ [created], nextProfileId := s.nextProfileId + 1 }
          let s2 := insert_rating_row s1 created.id category score reviewer note rated_at
          let s3 := append_profile_history_entry s2 created.id category score
            (rating_log_message reviewer note) rated_at
          .ok (s3, created.id)
      | some existing =>
        let updated := submit_updated_row existing payload now
        if violates_uniqueness s.profiles updated then .error .conflict
        else
          let s1 := { s with profiles := write_profile_row s.profiles updated }
          let s2 := insert_rating_row s1 existing.id category score reviewer note rated_at
          let s3 := append_profile_history_entry s2 existing.id category score
            (rating_log_message reviewer note) rated_at
          .ok (s3, existing.id)

/-- Python str applied to a value that may be the missing-key None. -/
def py_str_opt (value : Option String) : String :=
  match value with
  | some v => v
  | none => "None"

/-- JSON body of the explicit profile create route. -/
structure ProfilePayload where
  name : String
  externalEmployeeId : Option String
  status : Option String
  background : Option String
  historyEntries : List HistoryInput
  profileNotes : List NoteInput
deriving DecidableEq

/-- Profile row inserted by the profile-create route when the resolver
finds no match. -/
def create_profile_row (s : Store) (payload : ProfilePayload) : WorkerProfile :=
  { id := s.nextProfileId, name := pyStrip payload.name, jobCategory := none, score := none,
    reviewer := none, notes := none, ratedAt := none,
    profileStatus := some (pyStrip (py_str_opt payload.status)),
    backgroundInfo := some (pyStrip (payload.background.getD "")),
    externalEmployeeId := normalize_employee_id payload.externalEmployeeId,
    canonicalName := normalize_worker_name (pyStrip payload.name),
    canonicalWorkerKey := canonical_worker_key (pyStrip payload.name)
      (normalize_employee_id payload.externalEmployeeId) }

/-- Profile row written by the profile-create route over an existing
match: status, background and identity columns are replaced. -/
def create_updated_row (existing : WorkerProfile) (payload : ProfilePayload) : WorkerProfile :=
  { existing with
    profileStatus := some (pyStrip (py_str_opt payload.status)),
    backgroundInfo := some (pyStrip (payload.background.getD "")),
    externalEmployeeId := normalize_employee_id payload.externalEmployeeId,
    canonicalName := normalize_worker_name (pyStrip payload.name),
    canonicalWorkerKey := canonical_worker_key (pyStrip payload.name)
      (normalize_employee_id payload.externalEmployeeId) }

/-- Explicit profile create-or-update, from do_POST on the profile-create
route: validate, resolve identity, insert or update the profile fields,
then wholesale-replace history entries and profile notes. -/
def create_or_update_profile (s : Store) (payload : ProfilePayload) (now : String) :
    Except ApiError (Store × Nat) :=
  if (pyStrip payload.name).length < 2 then
    .error (.validation "name is required and must be at least 2 characters")
  else if payload.profileNotes.any (fun n => pyStrip n.note = "") then
    .error (.validation "Each profile note requires note text")
  else if payload.historyEntries.any (fun e => pyStrip e.category = "") then
    .error (.validation "Each history entry requires a category")
  else if payload.historyEntries.any (fun e => e.score < -5 ∨ e.score > 5) then
    .error (.validation "Each history entry score must be a number between -5 and 5")
  else
    let worker_name := pyStrip payload.name
    let external_employee_id := normalize_employee_id payload.externalEmployeeId
    let key := canonical_worker_key worker_name external_employee_id
    let profile_status := pyStrip (py_str_opt payload.status)
    let background_info := pyStrip (payload.background.getD "")
    match find_profile_by_rating_identity s.profiles worker_name key external_employee_id with
    | none =>
      let created := create_profile_row s payload
      if violates_uniqueness s.profiles created then .error .conflict
      else
        let s1 := { s with profiles := s.profiles ++ [created], nextProfileId := s.nextProfileId + 1 }
        let s2 := replace_profile_history s1 created.id payload.historyEntries now
        let s3 := replace_profile_notes s2 created.id payload.profileNotes now
        .ok (s3, created.id)
    | some existing =>
      let updated := create_updated_row existing payload
      if violates_uniqueness s.profiles updated then .error .conflict
      else
        let s1 := { s with profiles := write_profile_row s.profiles updated }
        let s2 := replace_profile_history s1 existing.id payload.historyEntries now
        let s3 := replace_profile_notes s2 existing.id payload.profileNotes now
        .ok (s3, existing.id)

/-- JSON body of the add-rating-to-profile route. -/
structure AddRatingPayload where
  category : String
  score : ℚ
  reviewer : String
  note : String
  ratedAt : Option String
deriving DecidableEq

/-- Snapshot refresh applied to the owning profile row by the add-rating
route. -/
def add_rating_snapshot_row (payload : AddRatingPayload) (now : String)
    (q : WorkerProfile) : WorkerProfile :=
  { q with
    jobCategory := some (pyStrip payload.category), score := some payload.score,
    reviewer := some (pyStrip payload.reviewer), notes := some (pyStrip payload.note),
    ratedAt := some (truthyOr payload.ratedAt now) }

/-- Rating addition to a known profile id, from do_POST on the nested
ratings route: validate, check existence, insert the rating, append the
history line, then update the denormalized snapshot. -/
def add_rating_to_profile (s : Store) (worker_id : Nat) (payload : AddRatingPayload)
    (now : String) : Except ApiError Store :=
  if payload.score < -5 ∨ payload.score > 5 then
    .error (.validation "score must be a number between -5 and 5")
  else if pyStrip payload.reviewer = "" then
    .error (.validation "Missing required field: reviewer")
  else
    let category := pyStrip payload.category
    let score := payload.score
    let reviewer := pyStrip payload.reviewer
    let note := pyStrip payload.note
    let rated_at := truthyOr payload.ratedAt now
    match getProfile s worker_id with
    | none => .error (.notFound "Profile not found")
    | some _ =>
      if validate_allowed_category s category = false then
        .error (.validation "category must be one of the admin-defined job types")
      else
        let s1 := insert_rating_row s worker_id category score reviewer note rated_at
        let s2 := append_profile_history_entry s1 worker_id category score
          (rating_log_message reviewer note) rated_at
        let s3 :=
          { s2 with profiles := s2.profiles.map (fun q =>
              if q.id == worker_id then add_rating_snapshot_row payload now q else q) }
        .ok s3

/-- JSON body of do_PUT.  An absent field is Option.none and keeps the
stored value; the externalEmployeeId field distinguishes an absent key
from an explicit null.  An explicit null in the numeric score field next
to a stored non-null score (a 400 in the source) is not modelled. -/
structure UpdatePayload where
  name : Option String
  externalEmployeeId : Option (Option String)
  category : Option String
  reviewer : Option String
  note : Option String
  status : Option String
  background : Option String
  score : Option ℚ
  ratedAt : Option String
  historyEntries : Option (List HistoryInput)
  profileNotes : Option (List NoteInput)
  logRating : Bool
deriving DecidableEq

/-- Score resolution of do_PUT: a payload score wins, an absent payload
score falls back to the stored score, and zero stands in when both are
missing. -/
def resolved_update_score (existing : WorkerProfile) (payload : UpdatePayload) : ℚ :=
  match payload.score, existing.score with
  | none, none => 0
  | none, some v => v
  | some v, _ => v

/-- Profile row written by do_PUT: each field resolved from the payload
with the stored value as default, every string field stripped, and the
canonical columns recomputed from the resolved name and employee id. -/
def resolved_update_row (existing : WorkerProfile) (payload : UpdatePayload) (now : String) :
    WorkerProfile :=
  { existing with
    name := pyStrip (payload.name.getD existing.name),
    jobCategory := some (pyStrip (payload.category.getD (existing.jobCategory.getD ""))),
    score := some (resolved_update_score existing payload),
    reviewer := some (pyStrip (payload.reviewer.getD (existing.reviewer.getD ""))),
    notes := some (pyStrip (payload.note.getD (existing.notes.getD ""))),
    ratedAt := some (truthyOr payload.ratedAt (truthyOr existing.ratedAt now)),
    profileStatus := some (pyStrip (payload.status.getD (existing.profileStatus.getD ""))),
    backgroundInfo := some (pyStrip (payload.background.getD (existing.backgroundInfo.getD ""))),
    externalEmployeeId := normalize_employee_id
      (match payload.externalEmployeeId with
       | some v => v
       | none => existing.externalEmployeeId),
    canonicalName := normalize_worker_name (pyStrip (payload.name.getD existing.name)),
    canonicalWorkerKey := canonical_worker_key (pyStrip (payload.name.getD existing.name))
      (normalize_employee_id
        (match payload.externalEmployeeId with
         | some v => v
         | none => existing.externalEmployeeId)) }

/-- Profile update, from do_PUT: look up the row, resolve each field from
the payload with the stored value as default, validate, write the row,
optionally log a rating with the resolved values, then wholesale-replace
history entries and profile notes. -/
def update_profile (s : Store) (profile_id : Nat) (payload : UpdatePayload) (now : String) :
    Except ApiError Store :=
  match getProfile s profile_id with
  | none => .error (.notFound "Profile not found")
  | some existing =>
    let name := pyStrip (payload.name.getD existing.name)
    let external_employee_id := normalize_employee_id
      (match payload.externalEmployeeId with
       | some v => v
       | none => existing.externalEmployeeId)
    let key := canonical_worker_key name external_employee_id
    let category := pyStrip (payload.category.getD (existing.jobCategory.getD ""))
    let reviewer := pyStrip (payload.reviewer.getD (existing.reviewer.getD ""))
    let note := pyStrip (payload.note.getD (existing.notes.getD ""))
    let profile_status := pyStrip (payload.status.getD (existing.profileStatus.getD ""))
    let background_info := pyStrip (payload.background.getD (existing.backgroundInfo.getD ""))
    let rated_at := truthyOr payload.ratedAt (truthyOr existing.ratedAt now)
    let history_entries := payload.historyEntries.getD []
    let profile_notes := payload.profileNotes.getD []
    if history_entries.any (fun e => pyStrip e.category = "") then
      .error (.validation "Each history entry requires a category")
    else if history_entries.any (fun e => e.score < -5 ∨ e.score > 5) then
      .error (.validation "Each history entry score must be a number between -5 and 5")
    else if profile_notes.any (fun n => pyStrip n.note = "") then
      .error (.validation "Each profile note requires note text")
    else
      let score := resolved_update_score existing payload
      if name.length < 2 then
        .error (.validation "name must be at least 2 characters")
      else if score < -5 ∨ score > 5 then
        .error (.validation "score must be a number between -5 and 5")
      else if validate_allowed_category s category = false then
        .error (.validation "category must be one of the admin-defined job types")
      else
        let row := resolved_update_row existing payload now
        if violates_uniqueness s.profiles row then .error .conflict
        else
          let s1 := { s with profiles := write_profile_row s.profiles row }
          let s2 :=
            if payload.logRating then
              append_profile_history_entry
                (insert_rating_row s1 profile_id category score reviewer note rated_at)
                profile_id category score (rating_log_message reviewer note) rated_at
            else s1
          let s3 := replace_profile_history s2 profile_id history_entries now
          let s4 := replace_profile_notes s3 profile_id profile_notes now
          .ok s4

/-- Profile merge, from do_POST on the merge route: reject equal or
missing numeric ids before touching storage, report not-found when either
row is absent, otherwise reparent ratings, history and notes from source
to target and delete the source row. -/
def merge_profiles (s : Store) (source_id target_id : Nat) : Except ApiError Store :=
  if source_id = 0 ∨ target_id = 0 ∨ source_id = target_id then
    .error (.validation "sourceProfileId and targetProfileId must be different numeric values")
  else
    match getProfile s source_id, getProfile s target_id with
    | some _, some _ =>
      .ok { s with
        ratings := s.ratings.map (fun r =>
          if r.workerId == source_id then { r with workerId := target_id } else r),
        history := s.history.map (fun h =>
          if h.workerId == source_id then { h with workerId := target_id } else h),
        noteRows := s.noteRows.map (fun n =>
          if n.workerId == source_id then { n with workerId := target_id } else n),
        profiles := s.profiles.filter (fun p => p.id != source_id) }
    | _, _ => .error (.notFound "One or both profiles were not found")

/-! Concrete fixtures used by scenario claims, their counterexamples and
the witnesses. -/

/-- Three Punctuality ratings with score minus two and increasing
timestamps, the scenario of the late-trend claim. -/
def janeRatings : List RatingRow :=
  [ { id := 1, category := "Punctuality", score := -2, reviewer := "Sam", note := "",
      ratedAt := "2024-01-01T00:00:00" },
    { id := 2, category := "Punctuality", score := -2, reviewer := "Sam", note := "",
      ratedAt := "2024-01-02T00:00:00" },
    { id := 3, category := "Punctuality", score := -2, reviewer := "Sam", note := "",
      ratedAt := "2024-01-03T00:00:00" } ]

/-- Rating submission naming Jane Doe with employee id E1. -/
def c3SubWithId : RatingSubmission :=
  { workerName := "Jane Doe", externalEmployeeId := some "E1", category := "Warehouse",
    score := 3, reviewer := "Sam", note := "", ratedAt := some "2024-01-01T00:00:00" }

/-- Rating submission naming Jane Doe with no employee id. -/
def c3SubNoId : RatingSubmission :=
  { workerName := "Jane Doe", externalEmployeeId := none, category := "Warehouse",
    score := -2, reviewer := "Pat", note := "", ratedAt := some "2024-01-02T00:00:00" }

/-- Database after submitting the employee-id rating first. -/
def c3Step1 : Store :=
  match submit_rating seedStore c3SubWithId "2024-01-01T00:00:00" with
  | .ok (s, _) => s
  | .error _ => seedStore

/-- Database after then submitting the identically named id-free rating. -/
def c3Step2 : Store :=
  match submit_rating c3Step1 c3SubNoId "2024-01-02T00:00:00" with
  | .ok (s, _) => s
  | .error _ => c3Step1

/-- Database after submitting the id-free rating first. -/
def c3SwapStep1 : Store :=
  match submit_rating seedStore c3SubNoId "2024-01-01T00:00:00" with
  | .ok (s, _) => s
  | .error _ => seedStore

/-- Database after then submitting the employee-id rating. -/
def c3SwapStep2 : Store :=
  match submit_rating c3SwapStep1 c3SubWithId "2024-01-02T00:00:00" with
  | .ok (s, _) => s
  | .error _ => c3SwapStep1

/-- Profile row with empty latest-rating snapshot, as created by the
explicit profile create route. -/
def c4Profile : WorkerProfile :=
  { id := 1, name := "Jane Doe", jobCategory := none, score := none, reviewer := none,
    notes := none, ratedAt := none, profileStatus := none, backgroundInfo := none,
    externalEmployeeId := none, canonicalName := "jane doe", canonicalWorkerKey := "jane doe" }

/-- Database holding only that profile. -/
def c4Store : Store :=
  { seedStore with profiles := [c4Profile], nextProfileId := 2 }

/-- Update payload that logs a rating but omits historyEntries. -/
def c4Payload : UpdatePayload :=
  { name := none, externalEmployeeId := none, category := none, reviewer := some "Sam",
    note := none, status := none, background := none, score := some 4,
    ratedAt := some "2024-02-01T00:00:00", historyEntries := none, profileNotes := none,
    logRating := true }

/-- Database after that update. -/
def c4After : Store :=
  match update_profile c4Store 1 c4Payload "2024-02-01T00:00:00" with
  | .ok s => s
  | .error _ => c4Store

/-- Profile row with one stored history entry and one stored note. -/
def c5Profile : WorkerProfile :=
  { id := 1, name := "Jane Doe", jobCategory := none, score := none, reviewer := none,
    notes := none, ratedAt := none, profileStatus := none, backgroundInfo := none,
    externalEmployeeId := none, canonicalName := "jane doe", canonicalWorkerKey := "jane doe" }

/-- Database with that profile, one history row and one note row. -/
def c5Store : Store :=
  { seedStore with
    profiles := [c5Profile],
    history := [{ id := 1, workerId := 1, category := "Warehouse", score := 2,
                  note := some "an old entry", createdAt := "2024-01-01T00:00:00" }],
    noteRows := [{ id := 1, workerId := 1, note := "keep me",
                   createdAt := "2024-01-01T00:00:00" }],
    nextProfileId := 2, nextHistoryId := 2, nextNoteId := 2 }

/-- Update payload with every field omitted. -/
def c5EmptyPayload : UpdatePayload :=
  { name := none, externalEmployeeId := none, category := none, reviewer := none,
    note := none, status := none, background := none, score := none, ratedAt := none,
    historyEntries := none, profileNotes := none, logRating := false }

/-- Database after updating with the empty payload. -/
def c5After : Store :=
  match update_profile c5Store 1 c5EmptyPayload "2024-02-01T00:00:00" with
  | .ok s => s
  | .error _ => c5Store

/-- Two distinct profile rows used by the merge witness. -/
def c6ProfileA : WorkerProfile :=
  { id := 1, name := "Jane Doe", jobCategory := none, score := none, reviewer := none,
    notes := none, ratedAt := none, profileStatus := none, backgroundInfo := none,
    externalEmployeeId := none, canonicalName := "jane doe", canonicalWorkerKey := "jane doe" }

/-- Second merge-witness profile. -/
def c6ProfileB : WorkerProfile :=
  { id := 2, name := "Bob Roe", jobCategory := none, score := none, reviewer := none,
    notes := none, ratedAt := none, profileStatus := none, backgroundInfo := none,
    externalEmployeeId := none, canonicalName := "bob roe", canonicalWorkerKey := "bob roe" }

/-- Database with both profiles, each owning one rating, one history row
and one note row. -/
def c6Store : Store :=
  { seedStore with
    profiles := [c6ProfileA, c6ProfileB],
    ratings := [{ id := 1, workerId := 1, jobCategory := "Warehouse", score := 1,
                  reviewer := "Sam", notes := "", ratedAt := "2024-01-01T00:00:00" },
                { id := 2, workerId := 2, jobCategory := "Picker", score := 2,
                  reviewer := "Pat", notes := "", ratedAt := "2024-01-02T00:00:00" }],
    history := [{ id := 1, workerId := 1, category := "Warehouse", score := 1,
                  note := some "a", createdAt := "2024-01-01T00:00:00" },
                { id := 2, workerId := 2, category := "Picker", score := 2,
                  note := some "b", createdAt := "2024-01-02T00:00:00" }],
    noteRows := [{ id := 1, workerId := 1, note := "n1", createdAt := "2024-01-01T00:00:00" },
                 { id := 2, workerId := 2, note := "n2", createdAt := "2024-01-02T00:00:00" }],
    nextProfileId := 3, nextRatingId := 3, nextHistoryId := 3, nextNoteId := 3 }

/-- Database after merging profile one into profile two. -/
def c6Merged : Store :=
  match merge_profiles c6Store 1 2 with
  | .ok s => s
  | .error _ => c6Store

/-- Profile-create payload omitting the status field. -/
def c10Payload : ProfilePayload :=
  { name := "Jane Doe", externalEmployeeId := none, status := none, background := none,
    historyEntries := [], profileNotes := [] }

/-- Database after creating a profile from that payload. -/
def c10After : Store :=
  match create_or_update_profile seedStore c10Payload "2024-01-01T00:00:00" with
  | .ok (s, _) => s
  | .error _ => seedStore

/-- Two profiles sharing a display name but not a canonical key, used by
the resolver witness. -/
def c2ProfileX : WorkerProfile :=
  { id := 1, name := "Jane Doe", jobCategory := none, score := none, reviewer := none,
    notes := none, ratedAt := none, profileStatus := none, backgroundInfo := none,
    externalEmployeeId := some "e1", canonicalName := "jane doe",
    canonicalWorkerKey := "jane doe::e1" }

/-- Second resolver-witness profile. -/
def c2ProfileY : WorkerProfile :=
  { id := 2, name := "Jane Doe", jobCategory := none, score := none, reviewer := none,
    notes := none, ratedAt := none, profileStatus := none, backgroundInfo := none,
    externalEmployeeId := none, canonicalName := "jane doe", canonicalWorkerKey := "jane doe" }

/-- Add-rating payload used by the side-effect witness. -/
def c4AddPayload : AddRatingPayload :=
  { category := "Warehouse", score := 4, reviewer := "Sam", note := "nice",
    ratedAt := some "2024-03-01T00:00:00" }

/-- Database after adding that rating to the fixture profile. -/
def c4AddAfter : Store :=
  match add_rating_to_profile c4Store 1 c4AddPayload "2024-03-01T00:00:00" with
  | .ok s => s
  | .error _ => c4Store

/-! Lemmas about the whitespace and lowercase primitives, leading to the
idempotence of canonicalization. -/

theorem collapseGo_cons_ws_true {c : Char} {cs : List Char} (h : isPyWS c = true) :
    collapseGo true (c :: cs) = collapseGo true cs := by
  simp [collapseGo, h]

theorem collapseGo_cons_ws_false {c : Char} {cs : List Char} (h : isPyWS c = true) :
    collapseGo false (c :: cs) = ' ' :: collapseGo true cs := by
  simp [collapseGo, h]

theorem collapseGo_cons_nonws (b : Bool) {c : Char} {cs : List Char} (h : isPyWS c = false) :
    collapseGo b (c :: cs) = c :: collapseGo false cs := by
  simp [collapseGo, h]

theorem lastIsWS_cons_of_ne_nil (c : Char) {cs : List Char} (h : cs ≠ []) :
    lastIsWS (c :: cs) = lastIsWS cs := by
  cases cs with
  | nil => exact absurd rfl h
  | cons d ds => rfl

theorem headIsWS_append_of_ne_nil {xs : List Char} (ys : List Char) (h : xs ≠ []) :
    headIsWS (xs ++ ys) = headIsWS xs := by
  cases xs with
  | nil => exact absurd rfl h
  | cons c cs => rfl

theorem headIsWS_reverse (l : List Char) : headIsWS l.reverse = lastIsWS l := by
  induction l with
  | nil => rfl
  | cons c cs ih =>
    cases cs with
    | nil => rfl
    | cons d ds =>
      rw [List.reverse_cons, headIsWS_append_of_ne_nil [c] (by simp),
        lastIsWS_cons_of_ne_nil c (List.cons_ne_nil d ds)]
      exact ih

theorem lastIsWS_reverse (l : List Char) : lastIsWS l.reverse = headIsWS l := by
  have h := headIsWS_reverse l.reverse
  rw [List.reverse_reverse] at h
  exact h.symm

theorem dropWhile_eq_self_of_head (l : List Char) (h : headIsWS l = false) :
    l.dropWhile isPyWS = l := by
  cases l with
  | nil => rfl
  | cons c cs =>
    simp only [headIsWS] at h
    simp [List.dropWhile, h]

theorem headIsWS_dropWhile (l : List Char) : headIsWS (l.dropWhile isPyWS) = false := by
  induction l with
  | nil => rfl
  | cons c cs ih =>
    by_cases h : isPyWS c
    · simpa [List.dropWhile, h] using ih
    · simp only [Bool.not_eq_true] at h
      simp [List.dropWhile, h, headIsWS]

theorem lastIsWS_dropWhile_of_ne_nil (l : List Char) (h : l.dropWhile isPyWS ≠ []) :
    lastIsWS (l.dropWhile isPyWS) = lastIsWS l := by
  induction l with
  | nil => rfl
  | cons c cs ih =>
    by_cases hc : isPyWS c
    · have hdrop : (c :: cs).dropWhile isPyWS = cs.dropWhile isPyWS := by
        simp [List.dropWhile, hc]
      rw [hdrop] at h ⊢
      have hcs : cs ≠ [] := by
        intro hnil
        rw [hnil] at h
        exact h rfl
      rw [ih h, lastIsWS_cons_of_ne_nil c hcs]
    · simp only [Bool.not_eq_true] at hc
      simp [List.dropWhile, hc]

theorem headIsWS_trimWSList (l : List Char) : headIsWS (trimWSList l) = false := by
  unfold trimWSList
  by_cases h : (l.dropWhile isPyWS).reverse.dropWhile isPyWS = []
  · rw [h]; rfl
  · rw [headIsWS_reverse, lastIsWS_dropWhile_of_ne_nil _ h, lastIsWS_reverse]
    exact headIsWS_dropWhile l

theorem lastIsWS_trimWSList (l : List Char) : lastIsWS (trimWSList l) = false := by
  unfold trimWSList
  rw [lastIsWS_reverse]
  exact headIsWS_dropWhile _

theorem trimWSList_eq_self (l : List Char) (h1 : headIsWS l = false) (h2 : lastIsWS l = false) :
    trimWSList l = l := by
  unfold trimWSList
  rw [dropWhile_eq_self_of_head l h1,
    dropWhile_eq_self_of_head _ (by rw [headIsWS_reverse]; exact h2),
    List.reverse_reverse]

theorem collapseGo_ws_space {b : Bool} {l : List Char} :
    ∀ c ∈ collapseGo b l, isPyWS c = true → c = ' ' := by
  induction l generalizing b with
  | nil => intro c hc; simp [collapseGo] at hc
  | cons d ds ih =>
    intro c hc hws
    by_cases hd : isPyWS d
    · cases b with
      | true =>
        rw [collapseGo_cons_ws_true hd] at hc
        exact ih c hc hws
      | false =>
        rw [collapseGo_cons_ws_false hd] at hc
        rcases List.mem_cons.mp hc with h | h
        · exact h
        · exact ih c h hws
    · simp only [Bool.not_eq_true] at hd
      rw [collapseGo_cons_nonws b hd] at hc
      rcases List.mem_cons.mp hc with h | h
      · rw [h] at hws; rw [hws] at hd; exact absurd hd (by simp)
      · exact ih c h hws

theorem headIsWS_collapseGo_true (l : List Char) : headIsWS (collapseGo true l) = false := by
  induction l with
  | nil => rfl
  | cons c cs ih =>
    by_cases hc : isPyWS c
    · rw [collapseGo_cons_ws_true hc]; exact ih
    · simp only [Bool.not_eq_true] at hc
      rw [collapseGo_cons_nonws true hc]
      simpa [headIsWS] using hc

theorem collapseGo_chain' (b : Bool) (l : List Char) :
    List.Chain' (fun a c => isPyWS a = true → isPyWS c = false) (collapseGo b l) := by
  induction l generalizing b with
  | nil => simp [collapseGo]
  | cons c cs ih =>
    by_cases hc : isPyWS c
    · cases b with
      | true => rw [collapseGo_cons_ws_true hc]; exact ih true
      | false =>
        rw [collapseGo_cons_ws_false hc]
        rw [List.chain'_cons']
        refine ⟨?_, ih true⟩
        intro y hy _
        have hhead := headIsWS_collapseGo_true cs
        cases hcol : collapseGo true cs with
        | nil => rw [hcol] at hy; simp at hy
        | cons z zs =>
          rw [hcol] at hy hhead
          simp only [List.head?] at hy
          simp only [headIsWS] at hhead
          injection hy with hyz
          rw [hyz] at hhead
          exact hhead
    · simp only [Bool.not_eq_true] at hc
      rw [collapseGo_cons_nonws b hc]
      rw [List.chain'_cons']
      refine ⟨?_, ih false⟩
      intro y _ hcws
      rw [hc] at hcws
      exact absurd hcws (by simp)

theorem headIsWS_collapseGo_false (l : List Char) (h : headIsWS l = false) :
    headIsWS (collapseGo false l) = false := by
  cases l with
  | nil => rfl
  | cons c cs =>
    simp only [headIsWS] at h
    rw [collapseGo_cons_nonws false h]
    simpa [headIsWS] using h

theorem collapseGo_ne_nil (b : Bool) (l : List Char) (hne : l ≠ [])
    (h : lastIsWS l = false) : collapseGo b l ≠ [] := by
  induction l generalizing b with
  | nil => exact absurd rfl hne
  | cons c cs ih =>
    cases cs with
    | nil =>
      simp only [lastIsWS] at h
      rw [collapseGo_cons_nonws b h]
      exact List.cons_ne_nil c _
    | cons d ds =>
      rw [lastIsWS_cons_of_ne_nil c (List.cons_ne_nil d ds)] at h
      by_cases hc : isPyWS c
      · cases b with
        | true =>
          rw [collapseGo_cons_ws_true hc]
          exact ih true (List.cons_ne_nil d ds) h
        | false =>
          rw [collapseGo_cons_ws_false hc]
          exact List.cons_ne_nil ' ' _
      · simp only [Bool.not_eq_true] at hc
        rw [collapseGo_cons_nonws b hc]
        exact List.cons_ne_nil c _

theorem lastIsWS_collapseGo (b : Bool) (l : List Char) (h : lastIsWS l = false) :
    lastIsWS (collapseGo b l) = false := by
  induction l generalizing b with
  | nil => rfl
  | cons c cs ih =>
    cases cs with
    | nil =>
      simp only [lastIsWS] at h
      rw [collapseGo_cons_nonws b h]
      simpa [collapseGo, lastIsWS] using h
    | cons d ds =>
      rw [lastIsWS_cons_of_ne_nil c (List.cons_ne_nil d ds)] at h
      have hne : collapseGo true (d :: ds) ≠ [] :=
        collapseGo_ne_nil true _ (List.cons_ne_nil d ds) h
      have hne' : collapseGo false (d :: ds) ≠ [] :=
        collapseGo_ne_nil false _ (List.cons_ne_nil d ds) h
      by_cases hc : isPyWS c
      · cases b with
        | true =>
          rw [collapseGo_cons_ws_true hc]
          exact ih true h
        | false =>
          rw [collapseGo_cons_ws_false hc, lastIsWS_cons_of_ne_nil ' ' hne]
          exact ih true h
      · simp only [Bool.not_eq_true] at hc
        rw [collapseGo_cons_nonws b hc, lastIsWS_cons_of_ne_nil c hne']
        exact ih false h

theorem collapseGo_eq_self (l : List Char)
    (h1 : ∀ c ∈ l, isPyWS c = true → c = ' ')
    (h2 : List.Chain' (fun a c => isPyWS a = true → isPyWS c = false) l) :
    collapseGo false l = l ∧ (headIsWS l = false → collapseGo true l = l) := by
  induction l with
  | nil => exact ⟨rfl, fun _ => rfl⟩
  | cons c cs ih =>
    rw [List.chain'_cons'] at h2
    obtain ⟨hhead, htail⟩ := h2
    have h1' : ∀ d ∈ cs, isPyWS d = true → d = ' ' := fun d hd => h1 d (List.mem_cons_of_mem c hd)
    obtain ⟨ihf, iht⟩ := ih h1' htail
    by_cases hc : isPyWS c
    · have hsp : c = ' ' := h1 c (List.mem_cons_self c cs) hc
      have hcs_head : headIsWS cs = false := by
        cases cs with
        | nil => rfl
        | cons d ds =>
          have hd := hhead d (by simp [List.head?]) hc
          simpa [headIsWS] using hd
      refine ⟨?_, ?_⟩
      · rw [collapseGo_cons_ws_false hc, iht hcs_head, hsp]
      · intro hcontra
        rw [show headIsWS (c :: cs) = isPyWS c from rfl, hc] at hcontra
        exact absurd hcontra (by simp)
    · simp only [Bool.not_eq_true] at hc
      refine ⟨?_, fun _ => ?_⟩
      · rw [collapseGo_cons_nonws false hc, ihf]
      · rw [collapseGo_cons_nonws true hc, ihf]

theorem lookupLower_mem {c d : Char} {ps : List (Char × Char)}
    (h : lookupLower c ps = some d) : (c, d) ∈ ps := by
  induction ps with
  | nil => simp [lookupLower] at h
  | cons p rest ih =>
    obtain ⟨u, l⟩ := p
    simp only [lookupLower] at h
    by_cases hc : c = u
    · simp [hc] at h
      simp [hc, h]
    · simp [hc] at h
      exact List.mem_cons_of_mem _ (ih h)

theorem lowerPairs_facts :
    ∀ p ∈ lowerPairs, lookupLower p.2 lowerPairs = none ∧ isPyWS p.1 = false ∧ isPyWS p.2 = false := by
  decide

theorem asciiLower_idem (c : Char) : asciiLower (asciiLower c) = asciiLower c := by
  unfold asciiLower
  cases h : lookupLower c lowerPairs with
  | none => simp [h]
  | some d =>
    have hm := lookupLower_mem h
    have hf := lowerPairs_facts (c, d) hm
    simp [hf.1]

theorem isPyWS_asciiLower (c : Char) : isPyWS (asciiLower c) = isPyWS c := by
  unfold asciiLower
  cases h : lookupLower c lowerPairs with
  | none => rfl
  | some d =>
    have hm := lookupLower_mem h
    have hf := lowerPairs_facts (c, d) hm
    simp [hf.2.2, hf.2.1]

theorem headIsWS_map_asciiLower (l : List Char) :
    headIsWS (l.map asciiLower) = headIsWS l := by
  cases l with
  | nil => rfl
  | cons c cs => simp [headIsWS, isPyWS_asciiLower]

theorem lastIsWS_map_asciiLower (l : List Char) :
    lastIsWS (l.map asciiLower) = lastIsWS l := by
  induction l with
  | nil => rfl
  | cons c cs ih =>
    cases cs with
    | nil => simp [lastIsWS, isPyWS_asciiLower]
    | cons d ds =>
      rw [List.map_cons, lastIsWS_cons_of_ne_nil c (List.cons_ne_nil d ds),
        lastIsWS_cons_of_ne_nil (asciiLower c) (by simp)]
      exact ih

theorem map_asciiLower_ws_space {l : List Char}
    (hsrc : ∀ c ∈ l, isPyWS c = true → c = ' ') :
    ∀ c ∈ l.map asciiLower, isPyWS c = true → c = ' ' := by
  intro c hc hws
  obtain ⟨d, hd, hdc⟩ := List.mem_map.mp hc
  have hwd : isPyWS d = true := by rw [← isPyWS_asciiLower, hdc]; exact hws
  have hd' := hsrc d hd hwd
  rw [← hdc, hd']
  rfl

theorem chain'_map_asciiLower {l : List Char}
    (h : List.Chain' (fun a c => isPyWS a = true → isPyWS c = false) l) :
    List.Chain' (fun a c => isPyWS a = true → isPyWS c = false) (l.map asciiLower) := by
  rw [List.chain'_map]
  refine h.imp ?_
  intro a b hab
  rw [isPyWS_asciiLower, isPyWS_asciiLower]
  exact hab

theorem map_asciiLower_idem (l : List Char) :
    (l.map asciiLower).map asciiLower = l.map asciiLower := by
  rw [List.map_map]
  exact List.map_congr_left (fun c _ => asciiLower_idem c)

theorem data_mk (l : List Char) : (String.mk l).data = l := rfl

theorem normalize_worker_name_idem (s : String) :
    normalize_worker_name (normalize_worker_name s) = normalize_worker_name s := by
  unfold normalize_worker_name
  rw [data_mk]
  set t := trimWSList s.data with ht
  set g := collapseGo false t with hg
  set m := g.map asciiLower with hm
  have hth : headIsWS t = false := headIsWS_trimWSList s.data
  have htl : lastIsWS t = false := lastIsWS_trimWSList s.data
  have hgh : headIsWS g = false := headIsWS_collapseGo_false t hth
  have hgl : lastIsWS g = false := lastIsWS_collapseGo false t htl
  have hmh : headIsWS m = false := by rw [hm, headIsWS_map_asciiLower]; exact hgh
  have hml : lastIsWS m = false := by rw [hm, lastIsWS_map_asciiLower]; exact hgl
  rw [trimWSList_eq_self m hmh hml]
  have hws : ∀ c ∈ m, isPyWS c = true → c = ' ' :=
    map_asciiLower_ws_space (fun c hc => collapseGo_ws_space c hc)
  have hchain : List.Chain' (fun a c => isPyWS a = true → isPyWS c = false) m :=
    chain'_map_asciiLower (collapseGo_chain' false t)
  rw [(collapseGo_eq_self m hws hchain).1, hm, map_asciiLower_idem]

theorem all_nonws_head {l : List Char} (h : ∀ c ∈ l, isPyWS c = false) :
    headIsWS l = false := by
  cases l with
  | nil => rfl
  | cons c cs => exact h c (List.mem_cons_self c cs)

theorem all_nonws_last {l : List Char} (h : ∀ c ∈ l, isPyWS c = false) :
    lastIsWS l = false := by
  induction l with
  | nil => rfl
  | cons c cs ih =>
    cases cs with
    | nil => exact h c (List.mem_cons_self c [])
    | cons d ds =>
      rw [lastIsWS_cons_of_ne_nil c (List.cons_ne_nil d ds)]
      exact ih (fun e he => h e (List.mem_cons_of_mem c he))

theorem normalize_employee_id_idem (raw : Option String) :
    normalize_employee_id (normalize_employee_id raw) = normalize_employee_id raw := by
  cases hr : normalize_employee_id raw with
  | none => rfl
  | some r =>
    unfold normalize_employee_id at hr
    by_cases hnil : trimWSList (raw.getD "").data = []
    · rw [if_pos hnil] at hr; exact absurd hr (by simp)
    · rw [if_neg hnil] at hr
      have hrdata : r.data =
          ((trimWSList (raw.getD "").data).filter (fun c => !(isPyWS c))).map asciiLower := by
        have hcongr := congrArg String.data (Option.some_injective _ hr)
        rw [data_mk] at hcongr
        exact hcongr.symm
      have hnonws : ∀ c ∈ r.data, isPyWS c = false := by
        intro c hc
        rw [hrdata] at hc
        obtain ⟨d, hd, hdc⟩ := List.mem_map.mp hc
        have hdnw : (!(isPyWS d)) = true := (List.mem_filter.mp hd).2
        rw [← hdc, isPyWS_asciiLower]
        simpa using hdnw
      have hne : r.data ≠ [] := by
        rw [hrdata]
        have hh := headIsWS_trimWSList (raw.getD "").data
        cases hcl : trimWSList (raw.getD "").data with
        | nil => exact absurd hcl hnil
        | cons c cs =>
          rw [hcl] at hh
          simp only [headIsWS] at hh
          simp [List.filter_cons, hh]
      unfold normalize_employee_id
      rw [Option.getD_some,
        trimWSList_eq_self r.data (all_nonws_head hnonws) (all_nonws_last hnonws),
        if_neg hne, List.filter_eq_self.mpr (fun c hc => by simp [hnonws c hc])]
      have hmap : (r.data).map asciiLower = r.data := by
        rw [hrdata, map_asciiLower_idem]
      rw [hmap]

/-- Claim C9: canonicalization is idempotent.  For every name and employee
id, the canonical worker key of the raw pair equals the canonical worker
key of the already-normalized pair, so any casing or whitespace variant of
the same input yields the same canonical key. -/
theorem claim_C9 (name : String) (employee_id : Option String) :
    canonical_worker_key name employee_id =
      canonical_worker_key (normalize_worker_name name) (normalize_employee_id employee_id) := by
  unfold canonical_worker_key
  rw [normalize_worker_name_idem, normalize_employee_id_idem]

/-- Claim C8: the canonical key is the normalized name joined to the
normalized employee id by a double colon when that id is non-null and the
normalized name alone otherwise; and the employee id normalizer yields
absence, never the empty string, when nothing but whitespace is given. -/
theorem claim_C8 :
    (∀ (name : String) (raw : Option String) (e : String),
        normalize_employee_id raw = some e →
        canonical_worker_key name raw = normalize_worker_name name ++ "::" ++ e)
    ∧ (∀ (name : String) (raw : Option String),
        normalize_employee_id raw = none →
        canonical_worker_key name raw = normalize_worker_name name)
    ∧ (∀ raw : Option String, normalize_employee_id raw ≠ some "")
    ∧ (∀ raw : Option String,
        (raw.getD "").data.filter (fun c => !(isPyWS c)) = [] →
        normalize_employee_id raw = none) := by
  refine ⟨?_, ?_, ?_, ?_⟩
  · intro name raw e h
    unfold canonical_worker_key
    rw [h]
  · intro name raw h
    unfold canonical_worker_key
    rw [h]
  · intro raw hcontra
    unfold normalize_employee_id at hcontra
    by_cases hnil : trimWSList (raw.getD "").data = []
    · rw [if_pos hnil] at hcontra
      exact absurd hcontra (by simp)
    · rw [if_neg hnil] at hcontra
      have hdata := congrArg String.data (Option.some_injective _ hcontra)
      rw [data_mk] at hdata
      have hh := headIsWS_trimWSList (raw.getD "").data
      cases hcl : trimWSList (raw.getD "").data with
      | nil => exact absurd hcl hnil
      | cons c cs =>
        rw [hcl] at hh hdata
        simp only [headIsWS] at hh
        rw [List.filter_cons] at hdata
        simp [hh] at hdata
  · intro raw hall
    have hws : ∀ c ∈ (raw.getD "").data, isPyWS c = true := by
      intro c hc
      by_contra hcon
      have hmem : c ∈ (raw.getD "").data.filter (fun d => !(isPyWS d)) :=
        List.mem_filter.mpr ⟨hc, by simpa using hcon⟩
      rw [hall] at hmem
      exact absurd hmem (by simp)
    have hdrop : (raw.getD "").data.dropWhile isPyWS = [] :=
      List.dropWhile_eq_nil_iff.mpr (fun c hc => hws c hc)
    unfold normalize_employee_id
    rw [if_pos (by unfold trimWSList; rw [hdrop]; rfl)]

/-- Witness for claim C8 at concrete inputs: a padded mixed-case employee
id contributes a double-colon suffix, and a whitespace-only id is treated
as absent. -/
theorem claim_C8_witness :
    canonical_worker_key "Jane Doe" (some " E 1 ") = normalize_worker_name "Jane Doe" ++ "::" ++ "e1"
    ∧ canonical_worker_key "Jane Doe" (some "   ") = normalize_worker_name "Jane Doe"
    ∧ normalize_employee_id (some "   ") = none :=
  ⟨claim_C8.1 "Jane Doe" (some " E 1 ") "e1" (by decide),
   claim_C8.2.1 "Jane Doe" (some "   ") (by decide),
   claim_C8.2.2.2 (some "   ") (by decide)⟩

/-! Lemmas about rounding, clamping and the analytics engine. -/

theorem round_mono_q {a b : ℚ} (h : a ≤ b) : round a ≤ round b := by
  rw [round_eq, round_eq]
  exact Int.floor_le_floor (by linarith)

theorem round2_nonneg {q : ℚ} (h : 0 ≤ q) : 0 ≤ round2 q := by
  unfold round2
  have h0 : round (0 : ℚ) ≤ round (q * 100) := round_mono_q (by nlinarith)
  rw [round_zero] at h0
  have : (0 : ℚ) ≤ ((round (q * 100) : ℤ) : ℚ) := by exact_mod_cast h0
  linarith [this]
  
theorem round2_le_int (q : ℚ) (n : ℤ) (h : q ≤ (n : ℚ)) : round2 q ≤ (n : ℚ) := by
  unfold round2
  have h1 : round (q * 100) ≤ round (((n * 100 : ℤ) : ℚ)) := by
    apply round_mono_q
    push_cast
    nlinarith
  rw [round_intCast] at h1
  have h2 : ((round (q * 100) : ℤ) : ℚ) ≤ ((n * 100 : ℤ) : ℚ) := by exact_mod_cast h1
  push_cast at h2
  linarith

theorem clamp_lower (v lo hi : ℚ) : lo ≤ clamp v lo hi :=
  le_max_left lo (min hi v)

theorem clamp_upper (v lo hi : ℚ) (h : lo ≤ hi) : clamp v lo hi ≤ hi :=
  max_le h (min_le_left hi v)

theorem round2_clamp_five (x : ℚ) :
    0 ≤ round2 (clamp x 0 5) ∧ round2 (clamp x 0 5) ≤ 5 := by
  constructor
  · exact round2_nonneg (clamp_lower x 0 5)
  · have hle : clamp x 0 5 ≤ ((5 : ℤ) : ℚ) := by
      have h5 := clamp_upper x 0 5 (by norm_num)
      push_cast
      linarith
    have h := round2_le_int (clamp x 0 5) 5 hle
    push_cast at h
    exact h

theorem round2_clamp_hundred (x : ℚ) :
    0 ≤ round2 (clamp x 0 100) ∧ round2 (clamp x 0 100) ≤ 100 := by
  constructor
  · exact round2_nonneg (clamp_lower x 0 100)
  · have hle : clamp x 0 100 ≤ ((100 : ℤ) : ℚ) := by
      have h100 := clamp_upper x 0 100 (by norm_num)
      push_cast
      linarith
    have h := round2_le_int (clamp x 0 100) 100 hle
    push_cast at h
    exact h

/-- Claim C7: for every square-root model and every input rating sequence,
including the empty one, the overall score of the analytics engine lies in
the interval from zero to five and the consistency score lies in the
interval from zero to one hundred. -/
theorem claim_C7 (sq : ℚ → ℚ) (rs : List RatingRow) :
    (0 ≤ (score_profile_metrics sq rs).normalizedOverallScore ∧
      (score_profile_metrics sq rs).normalizedOverallScore ≤ 5) ∧
    (0 ≤ (score_profile_metrics sq rs).consistencyScore ∧
      (score_profile_metrics sq rs).consistencyScore ≤ 100) := by
  unfold score_profile_metrics
  by_cases h : rs.isEmpty
  · rw [if_pos h]
    norm_num
  · rw [if_neg h]
    exact ⟨round2_clamp_five _, round2_clamp_hundred _⟩

theorem score_profile_metrics_lateTrend_eq (sq : ℚ → ℚ) (rs : List RatingRow)
    (h : rs.isEmpty = false) :
    (score_profile_metrics sq rs).lateTrendWeightApplied = late_trend_applied_of rs := by
  unfold score_profile_metrics
  rw [if_neg (by simp [h])]

theorem late_trend_applied_iff (rs : List RatingRow) :
    late_trend_applied_of rs = true ↔
      (3 ≤ (punctuality_of rs).length ∧ ∀ e ∈ recent_punctuality_of rs, e.score ≤ 0) := by
  unfold late_trend_applied_of
  rw [Bool.and_eq_true, beq_iff_eq, List.all_eq_true]
  have hlen : (recent_punctuality_of rs).length =
      (punctuality_of rs).length - ((punctuality_of rs).length - 3) := by
    unfold recent_punctuality_of lastThree
    rw [List.length_drop]
  constructor
  · rintro ⟨h3, hall⟩
    refine ⟨by omega, ?_⟩
    intro e he
    simpa using hall e he
  · rintro ⟨h3, hall⟩
    refine ⟨by omega, ?_⟩
    intro e he
    simpa using hall e he

/-- Claim C1: the analytics engine applies the late trend exactly when the
sorted punctuality subsequence has at least three entries and the last
three raw scores are all nonpositive; when applied, the weighted score of
each punctuality rating is its raw score doubled and every other weighted
score keeps multiplier one; and three Punctuality ratings of score minus
two produce an applied late trend with weighted scores of minus four. -/
theorem claim_C1 :
    (∀ (sq : ℚ → ℚ) (rs : List RatingRow),
        ((score_profile_metrics sq rs).lateTrendWeightApplied = true ↔
          (3 ≤ (punctuality_of rs).length ∧ ∀ e ∈ recent_punctuality_of rs, e.score ≤ 0)))
    ∧ (∀ (late_trend : Bool) (e : RatingRow),
        (late_trend = true → is_punctuality_category e.category = true →
          rating_weighted_score late_trend e = e.score * 2)
        ∧ (is_punctuality_category e.category = false →
          rating_weighted_score late_trend e = e.score * 1)
        ∧ (late_trend = false → rating_weighted_score late_trend e = e.score * 1))
    ∧ (∀ sq : ℚ → ℚ, (score_profile_metrics sq janeRatings).lateTrendWeightApplied = true)
    ∧ weighted_scores_of (late_trend_applied_of janeRatings) (sortRatings janeRatings) =
        [-4, -4, -4] := by
  refine ⟨?_, ?_, ?_, ?_⟩
  · intro sq rs
    cases hrs : rs.isEmpty with
    | true =>
      have hnil : rs = [] := by
        cases rs with
        | nil => rfl
        | cons a as => simp [List.isEmpty] at hrs
      subst hnil
      have hfalse : (score_profile_metrics sq []).lateTrendWeightApplied = false := rfl
      rw [hfalse]
      simp only [Bool.false_eq_true, false_iff]
      rintro ⟨h3, -⟩
      have hp : punctuality_of [] = [] := rfl
      rw [hp] at h3
      simp at h3
    | false =>
      rw [score_profile_metrics_lateTrend_eq sq rs hrs]
      exact late_trend_applied_iff rs
  · intro late_trend e
    refine ⟨?_, ?_, ?_⟩
    · intro hl hp
      unfold rating_weighted_score
      rw [hl, hp]
      norm_num
    · intro hp
      unfold rating_weighted_score
      rw [hp]
      simp
    · intro hl
      unfold rating_weighted_score
      rw [hl]
      simp
  · intro sq
    rw [score_profile_metrics_lateTrend_eq sq janeRatings (by decide)]
    decide
  · have hlate : late_trend_applied_of janeRatings = true := by decide
    have hsort : sortRatings janeRatings = janeRatings := by decide
    have hpunct : is_punctuality_category "Punctuality" = true := by decide
    rw [hlate, hsort]
    simp only [janeRatings, weighted_scores_of, rating_weighted_score, List.map_cons,
      List.map_nil, hpunct, Bool.and_self, if_true]
    norm_num

/-- Witness for claim C1: the late-trend condition instantiated at the
three concrete Punctuality ratings, discharged through the iff of the
claim theorem. -/
theorem claim_C1_witness :
    (score_profile_metrics (fun _ => 0) janeRatings).lateTrendWeightApplied = true :=
  (claim_C1.1 (fun _ => 0) janeRatings).mpr (by decide)

/-! Lemmas about the identity resolver. -/

/-- Claim C2: under the canonical-key uniqueness invariant maintained by
the unique indexes, the resolver returns the unique canonical-key match
when one exists; with no key match it returns no match whenever a
normalized employee id was supplied; otherwise it returns the unique
normalized-name match when exactly one exists and no match when zero or
several exist.  The Lean function is total and pure, which models the
never-mutates and never-raises contract. -/
theorem claim_C2 (profiles : List WorkerProfile) (worker_name canonical_key : String)
    (external_employee_id : Option String)
    (huniq : ∀ p ∈ profiles, ∀ q ∈ profiles,
      p.canonicalWorkerKey = canonical_key → q.canonicalWorkerKey = canonical_key → p = q) :
    (∀ p ∈ profiles, p.canonicalWorkerKey = canonical_key →
        find_profile_by_rating_identity profiles worker_name canonical_key external_employee_id =
          some p)
    ∧ ((∀ p ∈ profiles, p.canonicalWorkerKey ≠ canonical_key) →
        external_employee_id ≠ none →
        find_profile_by_rating_identity profiles worker_name canonical_key external_employee_id =
          none)
    ∧ ((∀ p ∈ profiles, p.canonicalWorkerKey ≠ canonical_key) →
        external_employee_id = none →
        (∀ p, profiles.filter
            (fun q => q.canonicalName == normalize_worker_name worker_name) = [p] →
          find_profile_by_rating_identity profiles worker_name canonical_key
            external_employee_id = some p)
        ∧ ((profiles.filter
              (fun q => q.canonicalName == normalize_worker_name worker_name)).length ≠ 1 →
          find_profile_by_rating_identity profiles worker_name canonical_key
            external_employee_id = none)) := by
  refine ⟨?_, ?_, ?_⟩
  · intro p hp hkey
    unfold find_profile_by_rating_identity
    cases hfind : profiles.find? (fun q => q.canonicalWorkerKey == canonical_key) with
    | none =>
      have := List.find?_eq_none.mp hfind p hp
      simp [hkey] at this
    | some q =>
      have hqmem : q ∈ profiles := List.mem_of_find?_eq_some hfind
      have hqkey : q.canonicalWorkerKey = canonical_key := by
        have := List.find?_some hfind
        simpa using this
      simp only []
      rw [huniq q hqmem p hp hqkey hkey]
  · intro hnone hsome
    unfold find_profile_by_rating_identity
    have hfind : profiles.find? (fun q => q.canonicalWorkerKey == canonical_key) = none := by
      rw [List.find?_eq_none]
      intro p hp
      simp [hnone p hp]
    rw [hfind]
    have : external_employee_id.isSome = true := by
      cases external_employee_id with
      | none => exact absurd rfl hsome
      | some v => rfl
    rw [if_pos this]
  · intro hnone hnoid
    have hfind : profiles.find? (fun q => q.canonicalWorkerKey == canonical_key) = none := by
      rw [List.find?_eq_none]
      intro p hp
      simp [hnone p hp]
    have hissome : external_employee_id.isSome = false := by rw [hnoid]; rfl
    constructor
    · intro p hfilter
      unfold find_profile_by_rating_identity
      rw [hfind, hissome]
      simp only [Bool.false_eq_true, if_false]
      rw [hfilter]
    · intro hlen
      unfold find_profile_by_rating_identity
      rw [hfind, hissome]
      simp only [Bool.false_eq_true, if_false]
      cases hfl : profiles.filter (fun q => q.canonicalName == normalize_worker_name worker_name) with
      | nil => rfl
      | cons a rest =>
        cases rest with
        | nil => rw [hfl] at hlen; simp at hlen
        | cons b more => rfl

/-- Witness for claim C2 at a concrete store: the key lookup returns the
keyed profile, and with two profiles sharing the display name the id-free
name lookup is ambiguous and returns no match. -/
theorem claim_C2_witness :
    find_profile_by_rating_identity [c2ProfileX, c2ProfileY] "Jane Doe" "jane doe::e1"
        (some "e1") = some c2ProfileX
    ∧ find_profile_by_rating_identity [c2ProfileX, c2ProfileY] "Jane Doe" "jane doe::e2"
        (some "e2") = none := by
  constructor
  · exact (claim_C2 [c2ProfileX, c2ProfileY] "Jane Doe" "jane doe::e1" (some "e1")
      (by decide)).1 c2ProfileX (by decide) (by decide)
  · exact (claim_C2 [c2ProfileX, c2ProfileY] "Jane Doe" "jane doe::e2" (some "e2")
      (by decide)).2.1 (by decide) (by decide)

/-! Lemmas about the merge resolver. -/

theorem length_filter_reparent {α : Type} (w : α → Nat) (g : α → α) (a b : Nat)
    (hab : a ≠ b) (hg : ∀ x, w (g x) = b) (l : List α) :
    ((l.map (fun x => if w x == a then g x else x)).filter (fun x => w x == b)).length =
      (l.filter (fun x => w x == b)).length + (l.filter (fun x => w x == a)).length := by
  induction l with
  | nil => rfl
  | cons x xs ih =>
    simp only [List.map_cons, List.filter_cons]
    by_cases hx : w x = a
    · rw [show (w x == a) = true from by simp [hx]]
      simp only [if_true]
      rw [show (w (g x) == b) = true from by simp [hg x]]
      rw [show (w x == b) = false from by simp [hx, hab]]
      simp only [if_true, Bool.false_eq_true, if_false, List.length_cons]
      omega
    · rw [show (w x == a) = false from by simp [hx]]
      simp only [Bool.false_eq_true, if_false]
      by_cases hxb : w x = b
      · rw [show (w x == b) = true from by simp [hxb]]
        simp only [if_true, List.length_cons]
        omega
      · rw [show (w x == b) = false from by simp [hxb]]
        simp only [Bool.false_eq_true, if_false]
        omega

/-- Claim C6: merging rejects equal ids with a validation error before any
lookup, reports not-found when either profile row is missing, and on
success the target owns the sum of both profiles' rating, history and note
rows while the source profile can no longer be fetched.  Error outcomes
return no store at all, which models that nothing was written. -/
theorem claim_C6 (s : Store) (source_id target_id : Nat) :
    (source_id = target_id →
      merge_profiles s source_id target_id =
        .error (.validation "sourceProfileId and targetProfileId must be different numeric values"))
    ∧ (source_id ≠ 0 → target_id ≠ 0 → source_id ≠ target_id →
        (getProfile s source_id = none ∨ getProfile s target_id = none) →
        merge_profiles s source_id target_id =
          .error (.notFound "One or both profiles were not found"))
    ∧ (∀ s', merge_profiles s source_id target_id = .ok s' →
        (profile_ratings s' target_id).length =
          (profile_ratings s source_id).length + (profile_ratings s target_id).length
        ∧ (profile_history s' target_id).length =
          (profile_history s source_id).length + (profile_history s target_id).length
        ∧ (profile_note_rows s' target_id).length =
          (profile_note_rows s source_id).length + (profile_note_rows s target_id).length
        ∧ getProfile s' source_id = none) := by
  refine ⟨?_, ?_, ?_⟩
  · intro heq
    unfold merge_profiles
    rw [if_pos (Or.inr (Or.inr heq))]
  · intro h0 h1 h2 hmiss
    unfold merge_profiles
    rw [if_neg (by push_neg; exact ⟨h0, h1, h2⟩)]
    cases hsrc : getProfile s source_id with
    | none =>
      cases htgt : getProfile s target_id with
      | none => rfl
      | some q => rfl
    | some p =>
      cases htgt : getProfile s target_id with
      | none => rfl
      | some q =>
        rw [hsrc, htgt] at hmiss
        rcases hmiss with hm | hm <;> exact absurd hm (by simp)
  · intro s' h
    unfold merge_profiles at h
    by_cases hids : source_id = 0 ∨ target_id = 0 ∨ source_id = target_id
    · rw [if_pos hids] at h
      exact absurd h (by simp)
    · rw [if_neg hids] at h
      push_neg at hids
      obtain ⟨-, -, hne⟩ := hids
      cases hsrc : getProfile s source_id with
      | none => rw [hsrc] at h; exact absurd h (by simp)
      | some p =>
        cases htgt : getProfile s target_id with
        | none => rw [hsrc, htgt] at h; exact absurd h (by simp)
        | some q =>
          rw [hsrc, htgt] at h
          simp only [Except.ok.injEq] at h
          subst h
          simp only [profile_ratings, profile_history, profile_note_rows]
          refine ⟨?_, ?_, ?_, ?_⟩
          · have hcount := length_filter_reparent (fun r : StoredRating => r.workerId)
              (fun r => { r with workerId := target_id }) source_id target_id hne
              (fun x => rfl) s.ratings
            omega
          · have hcount := length_filter_reparent (fun r : HistoryRow => r.workerId)
              (fun r => { r with workerId := target_id }) source_id target_id hne
              (fun x => rfl) s.history
            omega
          · have hcount := length_filter_reparent (fun r : NoteRow => r.workerId)
              (fun r => { r with workerId := target_id }) source_id target_id hne
              (fun x => rfl) s.noteRows
            omega
          · rw [show getProfile
                { s with
                  ratings := s.ratings.map (fun r =>
                    if r.workerId == source_id then { r with workerId := target_id } else r),
                  history := s.history.map (fun h =>
                    if h.workerId == source_id then { h with workerId := target_id } else h),
                  noteRows := s.noteRows.map (fun n =>
                    if n.workerId == source_id then { n with workerId := target_id } else n),
                  profiles := s.profiles.filter (fun p => p.id != source_id) } source_id =
                (s.profiles.filter (fun p => p.id != source_id)).find?
                  (fun p => p.id == source_id) from rfl]
            rw [List.find?_eq_none]
            intro p hp
            have hne' := (List.mem_filter.mp hp).2
            simp only [bne_iff_ne, ne_eq] at hne'
            simp [hne']

/-- Witness for claim C6: merging the two-profile fixture gives the target
both ratings, both history rows and both notes, and the source can no
longer be fetched. -/
theorem claim_C6_witness :
    (profile_ratings c6Merged 2).length =
      (profile_ratings c6Store 1).length + (profile_ratings c6Store 2).length
    ∧ (profile_history c6Merged 2).length =
      (profile_history c6Store 1).length + (profile_history c6Store 2).length
    ∧ (profile_note_rows c6Merged 2).length =
      (profile_note_rows c6Store 1).length + (profile_note_rows c6Store 2).length
    ∧ getProfile c6Merged 1 = none :=
  (claim_C6 c6Store 1 2).2.2 c6Merged rfl

/-- Counterexample to claim C3 as stated: submitting the employee-id E1
rating first and then the id-free rating with the identical display name
leaves a single profile, because the second submission resolves to the
unique name match and updates it; no second profile is created. -/
theorem claim_C3_cex :
    submit_rating seedStore c3SubWithId "2024-01-01T00:00:00" = .ok (c3Step1, 1)
    ∧ submit_rating c3Step1 c3SubNoId "2024-01-02T00:00:00" = .ok (c3Step2, 1)
    ∧ c3Step2.profiles.length = 1 :=
  ⟨rfl, rfl, rfl⟩

/-- Claim C3 as amended: in the claimed order the second, id-free
submission succeeds but updates the first profile through the unambiguous
name match, leaving one profile whose stored employee id is erased; the
two-distinct-profiles outcome arises in the opposite order, where the
id-free worker is created first and the later employee-id submission finds
no key match, is barred from name matching by its explicit id, and creates
a second profile. -/
theorem claim_C3 :
    (submit_rating seedStore c3SubWithId "2024-01-01T00:00:00" = .ok (c3Step1, 1)
      ∧ submit_rating c3Step1 c3SubNoId "2024-01-02T00:00:00" = .ok (c3Step2, 1)
      ∧ c3Step2.profiles.length = 1
      ∧ (getProfile c3Step2 1).map (fun p => p.externalEmployeeId) = some none)
    ∧ (submit_rating seedStore c3SubNoId "2024-01-01T00:00:00" = .ok (c3SwapStep1, 1)
      ∧ submit_rating c3SwapStep1 c3SubWithId "2024-01-02T00:00:00" = .ok (c3SwapStep2, 2)
      ∧ c3SwapStep2.profiles.length = 2
      ∧ getProfile c3SwapStep2 1 ≠ getProfile c3SwapStep2 2
      ∧ getProfile c3SwapStep2 2 ≠ none) :=
  ⟨⟨rfl, rfl, rfl, rfl⟩, ⟨rfl, rfl, rfl, by decide, by decide⟩⟩

/-! Lemmas about profile-row lookup after writes. -/

theorem find?_id_append_fresh (profiles : List WorkerProfile) (p : WorkerProfile)
    (h : ∀ q ∈ profiles, (q.id == p.id) = false) :
    (profiles ++ [p]).find? (fun q => q.id == p.id) = some p := by
  induction profiles with
  | nil => simp [List.find?]
  | cons x xs ih =>
    rw [List.cons_append, List.find?_cons_of_neg _ (by simp [h x (List.mem_cons_self x xs)])]
    exact ih (fun q hq => h q (List.mem_cons_of_mem x hq))

theorem find?_id_write (profiles : List WorkerProfile) (row : WorkerProfile)
    (hmem : ∃ q ∈ profiles, q.id = row.id) :
    (write_profile_row profiles row).find? (fun q => q.id == row.id) = some row := by
  induction profiles with
  | nil =>
    obtain ⟨q, hq, -⟩ := hmem
    exact absurd hq (by simp)
  | cons x xs ih =>
    unfold write_profile_row
    rw [List.map_cons]
    by_cases hx : x.id = row.id
    · rw [show (x.id == row.id) = true from by simp [hx]]
      simp only [if_true]
      rw [List.find?_cons_of_pos _ (by simp)]
    · rw [show (x.id == row.id) = false from by simp [hx]]
      simp only [Bool.false_eq_true, if_false]
      rw [List.find?_cons_of_neg _ (by simp [hx])]
      have hmem' : ∃ q ∈ xs, q.id = row.id := by
        obtain ⟨q, hq, hqid⟩ := hmem
        rcases List.mem_cons.mp hq with rfl | hq'
        · exact absurd hqid hx
        · exact ⟨q, hq', hqid⟩
      exact ih hmem'

theorem rating_log_message_ne_empty (reviewer note : String) :
    rating_log_message reviewer note ≠ "" := by
  unfold rating_log_message
  intro hc
  have hlen := congrArg String.length hc
  rw [String.length_append, String.length_append] at hlen
  have h17 : ("Rating logged by " : String).length = 17 := rfl
  have h0 : ("" : String).length = 0 := rfl
  rw [h17, h0] at hlen
  omega

theorem history_filter_clear (l : List HistoryRow) (wid : Nat) :
    (l.filter (fun h => h.workerId != wid)).filter (fun h => h.workerId == wid) = [] := by
  induction l with
  | nil => rfl
  | cons x xs ih =>
    by_cases hx : x.workerId = wid <;> simp [List.filter_cons, hx, ih]

theorem note_filter_clear (l : List NoteRow) (wid : Nat) :
    (l.filter (fun n => n.workerId != wid)).filter (fun n => n.workerId == wid) = [] := by
  induction l with
  | nil => rfl
  | cons x xs ih =>
    by_cases hx : x.workerId = wid <;> simp [List.filter_cons, hx, ih]

theorem foldl_proj_invariant {β γ : Type} (proj : Store → γ) (f : Store → β → Store)
    (hf : ∀ st b, proj (f st b) = proj st) (l : List β) :
    ∀ init : Store, proj (l.foldl f init) = proj init := by
  induction l with
  | nil => intro init; rfl
  | cons x xs ih =>
    intro init
    rw [List.foldl_cons, ih, hf]

theorem replace_profile_history_profiles (s : Store) (wid : Nat) (entries : List HistoryInput)
    (now : String) : (replace_profile_history s wid entries now).profiles = s.profiles := by
  unfold replace_profile_history
  refine foldl_proj_invariant Store.profiles _ ?_ entries _
  intro st b
  rfl

theorem replace_profile_history_ratings (s : Store) (wid : Nat) (entries : List HistoryInput)
    (now : String) : (replace_profile_history s wid entries now).ratings = s.ratings := by
  unfold replace_profile_history
  refine foldl_proj_invariant Store.ratings _ ?_ entries _
  intro st b
  rfl

theorem replace_profile_history_noteRows (s : Store) (wid : Nat) (entries : List HistoryInput)
    (now : String) : (replace_profile_history s wid entries now).noteRows = s.noteRows := by
  unfold replace_profile_history
  refine foldl_proj_invariant Store.noteRows _ ?_ entries _
  intro st b
  rfl

theorem replace_profile_notes_profiles (s : Store) (wid : Nat) (entries : List NoteInput)
    (now : String) : (replace_profile_notes s wid entries now).profiles = s.profiles := by
  unfold replace_profile_notes
  refine foldl_proj_invariant Store.profiles _ ?_ entries _
  intro st b
  rfl

theorem replace_profile_notes_ratings (s : Store) (wid : Nat) (entries : List NoteInput)
    (now : String) : (replace_profile_notes s wid entries now).ratings = s.ratings := by
  unfold replace_profile_notes
  refine foldl_proj_invariant Store.ratings _ ?_ entries _
  intro st b
  rfl

theorem replace_profile_notes_history (s : Store) (wid : Nat) (entries : List NoteInput)
    (now : String) : (replace_profile_notes s wid entries now).history = s.history := by
  unfold replace_profile_notes
  refine foldl_proj_invariant Store.history _ ?_ entries _
  intro st b
  rfl

theorem find_profile_mem {profiles : List WorkerProfile} {worker_name canonical_key : String}
    {external_employee_id : Option String} {p : WorkerProfile}
    (h : find_profile_by_rating_identity profiles worker_name canonical_key
      external_employee_id = some p) : p ∈ profiles := by
  unfold find_profile_by_rating_identity at h
  split at h
  next q hq =>
    simp only [Option.some.injEq] at h
    subst h
    exact List.mem_of_find?_eq_some hq
  next hq =>
    split at h
    · exact absurd h (by simp)
    · simp only [] at h
      split at h
      next p' heq =>
        simp only [Option.some.injEq] at h
        have hmem : p' ∈ profiles.filter
            (fun q => q.canonicalName == normalize_worker_name worker_name) := by
          rw [heq]
          exact List.mem_cons_self p' []
        exact h ▸ (List.mem_filter.mp hmem).1
      next => exact absurd h (by simp)

/-- Claim C10: when the profile create-or-update payload omits the status
field, the stored profile status afterwards is the literal four-character
string None, because Python str is applied to the missing value before
trimming.  The freshness hypothesis states that the AUTOINCREMENT counter
is ahead of every stored profile id, which sqlite guarantees. -/
theorem claim_C10 (s : Store) (payload : ProfilePayload) (now : String) (s' : Store) (wid : Nat)
    (hfresh : ∀ q ∈ s.profiles, q.id < s.nextProfileId)
    (hstatus : payload.status = none)
    (h : create_or_update_profile s payload now = .ok (s', wid)) :
    ∃ q, getProfile s' wid = some q ∧ q.profileStatus = some "None" := by
  unfold create_or_update_profile at h
  split at h
  · exact absurd h (by simp)
  split at h
  · exact absurd h (by simp)
  split at h
  · exact absurd h (by simp)
  split at h
  · exact absurd h (by simp)
  simp only [] at h
  split at h
  next hfind =>
    split at h
    · exact absurd h (by simp)
    next hconf =>
      simp only [Except.ok.injEq, Prod.mk.injEq] at h
      obtain ⟨rfl, rfl⟩ := h
      unfold getProfile
      rw [replace_profile_notes_profiles, replace_profile_history_profiles]
      refine ⟨_, find?_id_append_fresh s.profiles (create_profile_row s payload)
        (fun q hq => by simp [create_profile_row, Nat.ne_of_lt (hfresh q hq)]), ?_⟩
      show some (pyStrip (py_str_opt payload.status)) = some "None"
      rw [hstatus]
      rfl
  next existing hfind =>
    split at h
    · exact absurd h (by simp)
    next hconf =>
      simp only [Except.ok.injEq, Prod.mk.injEq] at h
      obtain ⟨rfl, rfl⟩ := h
      unfold getProfile
      rw [replace_profile_notes_profiles, replace_profile_history_profiles]
      refine ⟨_, find?_id_write s.profiles (create_updated_row existing payload)
        ⟨existing, find_profile_mem hfind, rfl⟩, ?_⟩
      show some (pyStrip (py_str_opt payload.status)) = some "None"
      rw [hstatus]
      rfl

/-- Witness for claim C10: creating Jane Doe with no status field stores
the literal string None. -/
theorem claim_C10_witness :
    ∃ q, getProfile c10After 1 = some q ∧ q.profileStatus = some "None" :=
  claim_C10 seedStore c10Payload "2024-01-01T00:00:00" c10After 1
    (fun q hq => absurd hq (by simp [seedStore])) rfl rfl

theorem find?_id_map_update (profiles : List WorkerProfile) (wid : Nat)
    (f : WorkerProfile → WorkerProfile) (hf : ∀ q, (f q).id = q.id) :
    (profiles.map (fun q => if q.id == wid then f q else q)).find? (fun q => q.id == wid) =
      (profiles.find? (fun q => q.id == wid)).map f := by
  induction profiles with
  | nil => rfl
  | cons x xs ih =>
    rw [List.map_cons]
    by_cases hx : x.id = wid
    · rw [show (x.id == wid) = true from by simp [hx]]
      simp only [if_true]
      rw [List.find?_cons_of_pos _ (by simp [hf, hx]),
        List.find?_cons_of_pos _ (by simp [hx])]
      rfl
    · rw [show (x.id == wid) = false from by simp [hx]]
      simp only [Bool.false_eq_true, if_false]
      rw [List.find?_cons_of_neg _ (by simp [hx]), List.find?_cons_of_neg _ (by simp [hx])]
      exact ih

theorem submit_rating_logged_effects (s : Store) (payload : RatingSubmission) (now : String)
    (s' : Store) (wid : Nat)
    (hfresh : ∀ q ∈ s.profiles, q.id < s.nextProfileId)
    (h : submit_rating s payload now = .ok (s', wid)) :
    ∃ r ∈ s'.ratings, r.workerId = wid ∧
      (∃ q, getProfile s' wid = some q ∧ q.jobCategory = some r.jobCategory ∧
        q.score = some r.score ∧ q.reviewer = some r.reviewer ∧ q.notes = some r.notes ∧
        q.ratedAt = some r.ratedAt) ∧
      ∃ hrow ∈ s'.history, hrow.workerId = wid ∧
        hrow.note = some (rating_log_message r.reviewer r.notes) := by
  unfold submit_rating at h
  split at h
  · exact absurd h (by simp)
  split at h
  · exact absurd h (by simp)
  split at h
  · exact absurd h (by simp)
  simp only [] at h
  split at h
  · exact absurd h (by simp)
  split at h
  next hfind =>
    split at h
    · exact absurd h (by simp)
    next hconf =>
      simp only [Except.ok.injEq, Prod.mk.injEq] at h
      obtain ⟨rfl, rfl⟩ := h
      simp only [append_profile_history_entry, insert_rating_row, getProfile]
      refine ⟨_, List.mem_append_right _ (List.mem_cons_self _ _), rfl, ?_, ?_⟩
      · refine ⟨submit_created_row s payload now, ?_, rfl, rfl, rfl, rfl, rfl⟩
        exact find?_id_append_fresh s.profiles (submit_created_row s payload now)
          (fun q hq => by simp [submit_created_row, Nat.ne_of_lt (hfresh q hq)])
      · refine ⟨_, List.mem_append_right _ (List.mem_cons_self _ _), rfl, ?_⟩
        rw [if_neg (rating_log_message_ne_empty _ _)]
  next existing hfind =>
    split at h
    · exact absurd h (by simp)
    next hconf =>
      simp only [Except.ok.injEq, Prod.mk.injEq] at h
      obtain ⟨rfl, rfl⟩ := h
      simp only [append_profile_history_entry, insert_rating_row, getProfile]
      refine ⟨_, List.mem_append_right _ (List.mem_cons_self _ _), rfl, ?_, ?_⟩
      · refine ⟨submit_updated_row existing payload now, ?_, rfl, rfl, rfl, rfl, rfl⟩
        exact find?_id_write s.profiles (submit_updated_row existing payload now)
          ⟨existing, find_profile_mem hfind, rfl⟩
      · refine ⟨_, List.mem_append_right _ (List.mem_cons_self _ _), rfl, ?_⟩
        rw [if_neg (rating_log_message_ne_empty _ _)]

theorem add_rating_logged_effects (s : Store) (worker_id : Nat) (payload : AddRatingPayload)
    (now : String) (s' : Store)
    (h : add_rating_to_profile s worker_id payload now = .ok s') :
    ∃ r ∈ s'.ratings, r.workerId = worker_id ∧
      (∃ q, getProfile s' worker_id = some q ∧ q.jobCategory = some r.jobCategory ∧
        q.score = some r.score ∧ q.reviewer = some r.reviewer ∧ q.notes = some r.notes ∧
        q.ratedAt = some r.ratedAt) ∧
      ∃ hrow ∈ s'.history, hrow.workerId = worker_id ∧
        hrow.note = some (rating_log_message r.reviewer r.notes) := by
  unfold add_rating_to_profile at h
  split at h
  · exact absurd h (by simp)
  split at h
  · exact absurd h (by simp)
  simp only [] at h
  split at h
  · exact absurd h (by simp)
  next existing hexist =>
    split at h
    · exact absurd h (by simp)
    simp only [Except.ok.injEq] at h
    subst h
    simp only [append_profile_history_entry, insert_rating_row, getProfile]
    refine ⟨_, List.mem_append_right _ (List.mem_cons_self _ _), rfl, ?_, ?_⟩
    · rw [find?_id_map_update s.profiles worker_id (add_rating_snapshot_row payload now)
        (fun q => rfl)]
      rw [show List.find? (fun p => p.id == worker_id) s.profiles = some existing from hexist]
      exact ⟨_, rfl, rfl, rfl, rfl, rfl, rfl⟩
    · refine ⟨_, List.mem_append_right _ (List.mem_cons_self _ _), rfl, ?_⟩
      rw [if_neg (rating_log_message_ne_empty _ _)]

theorem update_profile_logged_effects (s : Store) (profile_id : Nat) (payload : UpdatePayload)
    (now : String) (s' : Store)
    (hlog : payload.logRating = true)
    (hnohist : payload.historyEntries = none)
    (h : update_profile s profile_id payload now = .ok s') :
    (∃ r ∈ s'.ratings, r.workerId = profile_id ∧
      ∃ q, getProfile s' profile_id = some q ∧ q.jobCategory = some r.jobCategory ∧
        q.score = some r.score ∧ q.reviewer = some r.reviewer ∧ q.notes = some r.notes ∧
        q.ratedAt = some r.ratedAt) ∧
    profile_history s' profile_id = [] := by
  unfold update_profile at h
  split at h
  · exact absurd h (by simp)
  next existing hexist =>
    simp only [] at h
    rw [hlog, hnohist] at h
    simp only [List.any_nil, Option.getD_none, Bool.false_eq_true, if_false,
      eq_self_iff_true, if_true] at h
    split at h
    · exact absurd h (by simp)
    split at h
    · exact absurd h (by simp)
    split at h
    · exact absurd h (by simp)
    split at h
    · exact absurd h (by simp)
    split at h
    · exact absurd h (by simp)
    simp only [Except.ok.injEq] at h
    subst h
    have hid : existing.id = profile_id := by
      have := List.find?_some hexist
      simpa using this
    constructor
    · simp only [replace_profile_notes_ratings, replace_profile_history_ratings,
        append_profile_history_entry, insert_rating_row]
      refine ⟨_, List.mem_append_right _ (List.mem_cons_self _ _), rfl, ?_⟩
      unfold getProfile
      rw [replace_profile_notes_profiles, replace_profile_history_profiles]
      show ∃ q, List.find? (fun p => p.id == profile_id)
        (write_profile_row s.profiles (resolved_update_row existing payload now)) = some q ∧ _
      rw [show profile_id = existing.id from hid.symm]
      exact ⟨resolved_update_row existing payload now,
        find?_id_write s.profiles (resolved_update_row existing payload now)
          ⟨existing, List.mem_of_find?_eq_some hexist, rfl⟩,
        rfl, rfl, rfl, rfl, rfl⟩
    · unfold profile_history
      rw [replace_profile_notes_history]
      show List.filter (fun hrow : HistoryRow => hrow.workerId == profile_id)
        (List.filter (fun hrow : HistoryRow => hrow.workerId != profile_id) _) = []
      exact history_filter_clear _ profile_id

/-- Counterexample to claim C4 as stated: updating the fixture profile
with logRating true and historyEntries omitted appends a rating, yet the
profile's history afterwards is empty, because the wholesale history
replacement that follows deletes the just-appended log entry. -/
theorem claim_C4_cex :
    c4Payload.logRating = true
    ∧ update_profile c4Store 1 c4Payload "2024-02-01T00:00:00" = .ok c4After
    ∧ (profile_ratings c4After 1).length = 1
    ∧ profile_history c4After 1 = [] :=
  ⟨rfl, rfl, rfl, rfl⟩

/-- Claim C4 as amended: after a rating submission by name and after
addRatingToProfile, the owning profile's denormalized latest-rating
snapshot equals the new rating and a history entry carrying the
rating-logged message is present; after updateProfile with logRating true
the snapshot equals the new rating as well, but the appended history entry
is removed by the wholesale history replacement, so with historyEntries
omitted the profile's history afterwards is empty. -/
theorem claim_C4 :
    (∀ (s : Store) (payload : RatingSubmission) (now : String) (s' : Store) (wid : Nat),
      (∀ q ∈ s.profiles, q.id < s.nextProfileId) →
      submit_rating s payload now = .ok (s', wid) →
      ∃ r ∈ s'.ratings, r.workerId = wid ∧
        (∃ q, getProfile s' wid = some q ∧ q.jobCategory = some r.jobCategory ∧
          q.score = some r.score ∧ q.reviewer = some r.reviewer ∧ q.notes = some r.notes ∧
          q.ratedAt = some r.ratedAt) ∧
        ∃ hrow ∈ s'.history, hrow.workerId = wid ∧
          hrow.note = some (rating_log_message r.reviewer r.notes))
    ∧ (∀ (s : Store) (worker_id : Nat) (payload : AddRatingPayload) (now : String) (s' : Store),
      add_rating_to_profile s worker_id payload now = .ok s' →
      ∃ r ∈ s'.ratings, r.workerId = worker_id ∧
        (∃ q, getProfile s' worker_id = some q ∧ q.jobCategory = some r.jobCategory ∧
          q.score = some r.score ∧ q.reviewer = some r.reviewer ∧ q.notes = some r.notes ∧
          q.ratedAt = some r.ratedAt) ∧
        ∃ hrow ∈ s'.history, hrow.workerId = worker_id ∧
          hrow.note = some (rating_log_message r.reviewer r.notes))
    ∧ (∀ (s : Store) (profile_id : Nat) (payload : UpdatePayload) (now : String) (s' : Store),
      payload.logRating = true → payload.historyEntries = none →
      update_profile s profile_id payload now = .ok s' →
      (∃ r ∈ s'.ratings, r.workerId = profile_id ∧
        ∃ q, getProfile s' profile_id = some q ∧ q.jobCategory = some r.jobCategory ∧
          q.score = some r.score ∧ q.reviewer = some r.reviewer ∧ q.notes = some r.notes ∧
          q.ratedAt = some r.ratedAt) ∧
      profile_history s' profile_id = []) :=
  ⟨submit_rating_logged_effects, add_rating_logged_effects, update_profile_logged_effects⟩

/-- Witness for claim C4: adding a rating to the fixture profile leaves
the snapshot equal to the rating and the logged history entry present. -/
theorem claim_C4_witness :
    ∃ r ∈ c4AddAfter.ratings, r.workerId = 1 ∧
      (∃ q, getProfile c4AddAfter 1 = some q ∧ q.jobCategory = some r.jobCategory ∧
        q.score = some r.score ∧ q.reviewer = some r.reviewer ∧ q.notes = some r.notes ∧
        q.ratedAt = some r.ratedAt) ∧
      ∃ hrow ∈ c4AddAfter.history, hrow.workerId = 1 ∧
        hrow.note = some (rating_log_message r.reviewer r.notes) :=
  claim_C4.2.1 c4Store 1 c4AddPayload "2024-03-01T00:00:00" c4AddAfter rfl

theorem truthyOr_some_ne {v : String} (d : String) (h : v ≠ "") : truthyOr (some v) d = v := by
  simp [truthyOr, h]

theorem truthyOr_none_eq (d : String) : truthyOr none d = d := rfl

/-- Counterexample to claim C5 as stated: updating the fixture profile
with a payload that omits every field succeeds, yet the stored history
entry and profile note are gone afterwards instead of being retained. -/
theorem claim_C5_cex :
    update_profile c5Store 1 c5EmptyPayload "2024-02-01T00:00:00" = .ok c5After
    ∧ (profile_history c5Store 1).length = 1
    ∧ (profile_note_rows c5Store 1).length = 1
    ∧ profile_history c5After 1 = []
    ∧ profile_note_rows c5After 1 = [] :=
  ⟨rfl, rfl, rfl, rfl, rfl⟩

/-- Claim C5 as amended: in updateProfile, supplied scalar fields take the
new whitespace-stripped values, and omitted scalar fields retain the
stored values provided those stored values are in the normalized form the
write paths maintain (trimmed strings, non-empty rated-at, normalized
employee id); history entries and profile notes, by contrast, are replaced
wholesale, so omitting them clears them rather than retaining them. -/
theorem claim_C5 (s : Store) (profile_id : Nat) (payload : UpdatePayload) (now : String)
    (existing : WorkerProfile) (s' : Store)
    (hget : getProfile s profile_id = some existing)
    (hnohist : payload.historyEntries = none)
    (hnonotes : payload.profileNotes = none)
    (hnolog : payload.logRating = false)
    (h : update_profile s profile_id payload now = .ok s') :
    ∃ q, getProfile s' profile_id = some q ∧
      (profile_history s' profile_id = [] ∧ profile_note_rows s' profile_id = []) ∧
      ((∀ v, payload.name = some v → q.name = pyStrip v)
      ∧ (∀ v, payload.category = some v → q.jobCategory = some (pyStrip v))
      ∧ (∀ v, payload.reviewer = some v → q.reviewer = some (pyStrip v))
      ∧ (∀ v, payload.note = some v → q.notes = some (pyStrip v))
      ∧ (∀ v, payload.status = some v → q.profileStatus = some (pyStrip v))
      ∧ (∀ v, payload.background = some v → q.backgroundInfo = some (pyStrip v))
      ∧ (∀ v, payload.score = some v → q.score = some v)
      ∧ (∀ v, payload.ratedAt = some v → v ≠ "" → q.ratedAt = some v)
      ∧ (∀ v, payload.externalEmployeeId = some v →
          q.externalEmployeeId = normalize_employee_id v)
      ∧ (payload.name = none → pyStrip existing.name = existing.name → q.name = existing.name)
      ∧ (payload.category = none → ∀ c, existing.jobCategory = some c → pyStrip c = c →
          q.jobCategory = some c)
      ∧ (payload.reviewer = none → ∀ c, existing.reviewer = some c → pyStrip c = c →
          q.reviewer = some c)
      ∧ (payload.note = none → ∀ c, existing.notes = some c → pyStrip c = c → q.notes = some c)
      ∧ (payload.status = none → ∀ c, existing.profileStatus = some c → pyStrip c = c →
          q.profileStatus = some c)
      ∧ (payload.background = none → ∀ c, existing.backgroundInfo = some c → pyStrip c = c →
          q.backgroundInfo = some c)
      ∧ (payload.score = none → ∀ v, existing.score = some v → q.score = some v)
      ∧ (payload.ratedAt = none → ∀ v, existing.ratedAt = some v → v ≠ "" →
          q.ratedAt = some v)
      ∧ (payload.externalEmployeeId = none →
          q.externalEmployeeId = normalize_employee_id existing.externalEmployeeId)) := by
  unfold update_profile at h
  rw [hget] at h
  simp only [] at h
  rw [hnohist, hnonotes, hnolog] at h
  simp only [List.any_nil, Option.getD_none, Bool.false_eq_true, if_false,
    eq_self_iff_true, if_true] at h
  split at h
  · exact absurd h (by simp)
  split at h
  · exact absurd h (by simp)
  split at h
  · exact absurd h (by simp)
  split at h
  · exact absurd h (by simp)
  simp only [Except.ok.injEq] at h
  subst h
  have hid : existing.id = profile_id := by
    have hs := List.find?_some hget
    simpa using hs
  refine ⟨resolved_update_row existing payload now, ?_, ⟨?_, ?_⟩, ?_⟩
  · unfold getProfile
    rw [replace_profile_notes_profiles, replace_profile_history_profiles]
    show List.find? (fun p => p.id == profile_id)
      (write_profile_row s.profiles (resolved_update_row existing payload now)) = some _
    rw [show profile_id = existing.id from hid.symm]
    exact find?_id_write s.profiles (resolved_update_row existing payload now)
      ⟨existing, List.mem_of_find?_eq_some hget, rfl⟩
  · unfold profile_history
    rw [replace_profile_notes_history]
    show List.filter (fun hrow : HistoryRow => hrow.workerId == profile_id)
      (List.filter (fun hrow : HistoryRow => hrow.workerId != profile_id) _) = []
    exact history_filter_clear _ profile_id
  · unfold profile_note_rows
    show List.filter (fun nrow : NoteRow => nrow.workerId == profile_id)
      (List.filter (fun nrow : NoteRow => nrow.workerId != profile_id) _) = []
    exact note_filter_clear _ profile_id
  refine ⟨?_, ?_, ?_, ?_, ?_, ?_, ?_, ?_, ?_, ?_, ?_, ?_, ?_, ?_, ?_, ?_, ?_, ?_⟩
  · intro v hv
    show pyStrip (payload.name.getD existing.name) = pyStrip v
    rw [hv, Option.getD_some]
  · intro v hv
    show some (pyStrip (payload.category.getD (existing.jobCategory.getD ""))) = _
    rw [hv, Option.getD_some]
  · intro v hv
    show some (pyStrip (payload.reviewer.getD (existing.reviewer.getD ""))) = _
    rw [hv, Option.getD_some]
  · intro v hv
    show some (pyStrip (payload.note.getD (existing.notes.getD ""))) = _
    rw [hv, Option.getD_some]
  · intro v hv
    show some (pyStrip (payload.status.getD (existing.profileStatus.getD ""))) = _
    rw [hv, Option.getD_some]
  · intro v hv
    show some (pyStrip (payload.background.getD (existing.backgroundInfo.getD ""))) = _
    rw [hv, Option.getD_some]
  · intro v hv
    show some (resolved_update_score existing payload) = some v
    unfold resolved_update_score
    rw [hv]
  · intro v hv hne
    show some (truthyOr payload.ratedAt (truthyOr existing.ratedAt now)) = some v
    rw [hv, truthyOr_some_ne _ hne]
  · intro v hv
    show normalize_employee_id
      (match payload.externalEmployeeId with
       | some w => w
       | none => existing.externalEmployeeId) = normalize_employee_id v
    rw [hv]
  · intro h0 hnorm
    show pyStrip (payload.name.getD existing.name) = existing.name
    rw [h0, Option.getD_none]
    exact hnorm
  · intro h0 c hc hnorm
    show some (pyStrip (payload.category.getD (existing.jobCategory.getD ""))) = some c
    rw [h0, Option.getD_none, hc, Option.getD_some, hnorm]
  · intro h0 c hc hnorm
    show some (pyStrip (payload.reviewer.getD (existing.reviewer.getD ""))) = some c
    rw [h0, Option.getD_none, hc, Option.getD_some, hnorm]
  · intro h0 c hc hnorm
    show some (pyStrip (payload.note.getD (existing.notes.getD ""))) = some c
    rw [h0, Option.getD_none, hc, Option.getD_some, hnorm]
  · intro h0 c hc hnorm
    show some (pyStrip (payload.status.getD (existing.profileStatus.getD ""))) = some c
    rw [h0, Option.getD_none, hc, Option.getD_some, hnorm]
  · intro h0 c hc hnorm
    show some (pyStrip (payload.background.getD (existing.backgroundInfo.getD ""))) = some c
    rw [h0, Option.getD_none, hc, Option.getD_some, hnorm]
  · intro h0 v hv
    show some (resolved_update_score existing payload) = some v
    unfold resolved_update_score
    rw [h0, hv]
  · intro h0 v hv hne
    show some (truthyOr payload.ratedAt (truthyOr existing.ratedAt now)) = some v
    rw [h0, truthyOr_none_eq, hv, truthyOr_some_ne _ hne]
  · intro h0
    show normalize_employee_id
      (match payload.externalEmployeeId with
       | some w => w
       | none => existing.externalEmployeeId) =
      normalize_employee_id existing.externalEmployeeId
    rw [h0]

/-- Witness for claim C5: the empty-payload update of the fixture clears
its history entries and profile notes, via the amended claim theorem. -/
theorem claim_C5_witness :
    profile_history c5After 1 = [] ∧ profile_note_rows c5After 1 = [] := by
  obtain ⟨q, -, hpair, -⟩ := claim_C5 c5Store 1 c5EmptyPayload "2024-02-01T00:00:00" c5Profile
    c5After rfl rfl rfl rfl rfl
  exact hpair

end TeamConsistency
